import Mathlib

/-!
Shallow embedding of the manage_restaurant settlement-ledger service.

The embedding models the persistent database state (restaurants, processor
events, ledger entries, payouts, payout items) as explicit lists, and the
service operations (event processing, ledger posting, payout generation,
balance calculation) as pure state-passing functions translated from the
Python sources under app/.  Timestamps and dates are modelled as integers;
a timedelta of d days is d * 86400.  Monetary amounts are integers (cents).
Each operation that reads the database clock receives the current instant
as an explicit argument.
-/

namespace MR

/-- EventType from app/core/enums.py. -/
inductive EventType
  | charge_succeeded
  | refund_succeeded
  | payout_paid
deriving DecidableEq, Repr

/-- EntryType from app/core/enums.py. -/
inductive EntryType
  | sale
  | commission
  | refund
  | payout_reserve
deriving DecidableEq, Repr

/-- PayoutStatus from app/core/enums.py. -/
inductive PayoutStatus
  | created
  | processing
  | paid
  | failed
deriving DecidableEq, Repr

/-- The part of an event's metadata dictionary read by the event processor:
EventProcessor._process_payout_paid reads metadata_.get("payout_id"). -/
structure EventMetadata where
  payout_id : Option Nat
deriving DecidableEq, Repr

/-- Restaurant row, app/db/models/restaurant.py (fields used by the core). -/
structure Restaurant where
  id : String
  name : String
  is_active : Bool
deriving DecidableEq, Repr

/-- ProcessorEvent row, app/db/models/processor_event.py. -/
structure ProcessorEvent where
  id : Nat
  event_id : String
  event_type : EventType
  occurred_at : Int
  restaurant_id : String
  currency : String
  amount_cents : Int
  fee_cents : Int
  created_at : Int
  metadata_ : Option EventMetadata
deriving DecidableEq, Repr

/-- LedgerEntry row, app/db/models/ledger_entry.py. -/
structure LedgerEntry where
  id : Nat
  restaurant_id : String
  amount_cents : Int
  currency : String
  entry_type : EntryType
  description : Option String
  related_event_id : Option String
  related_payout_id : Option Nat
  created_at : Int
  available_at : Option Int
deriving DecidableEq, Repr

/-- Payout row, app/db/models/payout.py. -/
structure Payout where
  id : Nat
  restaurant_id : String
  amount_cents : Int
  currency : String
  as_of : Int
  status : PayoutStatus
  created_at : Int
  paid_at : Option Int
  failure_reason : Option String
deriving DecidableEq, Repr

/-- PayoutItem row, app/db/models/payout_item.py. -/
structure PayoutItem where
  payout_id : Nat
  item_type : String
  amount_cents : Int
deriving DecidableEq, Repr

/-- Validated ingestion payload, app/schemas/events.py ProcessorEventCreate. -/
structure ProcessorEventCreate where
  event_id : String
  event_type : EventType
  occurred_at : Int
  restaurant_id : String
  currency : String
  amount_cents : Int
  fee_cents : Int
  metadata : Option EventMetadata
deriving DecidableEq, Repr

/-- Pydantic field constraints of ProcessorEventCreate:
event_id 1..50 chars, restaurant_id matching the regex res_ anchor,
currency three uppercase letters, amount_cents >= 0, fee_cents >= 0. -/
def ProcessorEventCreate.Valid (d : ProcessorEventCreate) : Prop :=
  1 ≤ d.event_id.length ∧ d.event_id.length ≤ 50 ∧
  d.restaurant_id.data.take 4 = "res_".data ∧
  d.currency.length = 3 ∧ d.currency.data.all Char.isUpper = true ∧
  0 ≤ d.amount_cents ∧ 0 ≤ d.fee_cents

instance (d : ProcessorEventCreate) : Decidable d.Valid := by
  unfold ProcessorEventCreate.Valid
  infer_instance

/-- Request body of POST /v1/payouts/run, app/schemas/payouts.py PayoutRunRequest. -/
structure PayoutRunRequest where
  currency : String
  as_of : Int
  min_amount : Int
deriving DecidableEq, Repr

/-- Pydantic field constraint of PayoutRunRequest: min_amount > 0 (gt=0). -/
def PayoutRunRequest.Valid (d : PayoutRunRequest) : Prop :=
  0 < d.min_amount

/-- Request body of the per-restaurant payout path, app/schemas/payouts.py PayoutCreate. -/
structure PayoutCreate where
  restaurant_id : String
  currency : String
deriving DecidableEq, Repr

/-- The whole persistent state plus the process-wide balance gauge metric
(metrics.balance_total), threaded through every operation. -/
structure DBState where
  restaurants : List Restaurant
  events : List ProcessorEvent
  entries : List LedgerEntry
  payouts : List Payout
  items : List PayoutItem
  nextEventId : Nat
  nextEntryId : Nat
  nextPayoutId : Nat
  balanceGauge : Int
deriving DecidableEq, Repr

/-- The empty database with autoincrement counters at 1 and gauge at 0. -/
def initState : DBState :=
  { restaurants := [], events := [], entries := [], payouts := [], items := []
    nextEventId := 1, nextEntryId := 1, nextPayoutId := 1, balanceGauge := 0 }

/-! ## RestaurantRepository (app/db/repositories/restaurant_repository.py) -/

/-- RestaurantRepository.get_or_create: select by id; if absent insert a row
with is_active defaulting to true (models/restaurant.py server_default).
The concurrent-insert IntegrityError branch does not arise in this
sequential embedding. -/
def get_or_create (s : DBState) (restaurant_id name : String) : DBState :=
  if s.restaurants.any (fun r => decide (r.id = restaurant_id)) then s
  else { s with restaurants :=
          s.restaurants ++ [{ id := restaurant_id, name := name, is_active := true }] }

/-- RestaurantRepository.list_active_restaurant_ids. -/
def list_active_restaurant_ids (s : DBState) : List String :=
  (s.restaurants.filter (fun r => r.is_active)).map (fun r => r.id)

/-! ## EventRepository (app/db/repositories/event_repository.py) -/

/-- EventRepository.create_event: select by event_id; if found return it with
is_new = false, else insert and return the new row with is_new = true. -/
def create_event (s : DBState) (d : ProcessorEventCreate) (now : Int) :
    ProcessorEvent × Bool × DBState :=
  match s.events.find? (fun e => decide (e.event_id = d.event_id)) with
  | some e => (e, false, s)
  | none =>
      let e : ProcessorEvent :=
        { id := s.nextEventId, event_id := d.event_id, event_type := d.event_type
          occurred_at := d.occurred_at, restaurant_id := d.restaurant_id
          currency := d.currency, amount_cents := d.amount_cents
          fee_cents := d.fee_cents, created_at := now, metadata_ := d.metadata }
      (e, true, { s with events := s.events ++ [e], nextEventId := s.nextEventId + 1 })

/-! ## LedgerRepository (app/db/repositories/ledger_repository.py) -/

/-- LedgerRepository.create_entry: insert one ledger row. -/
def create_entry (s : DBState) (restaurant_id : String) (amount_cents : Int)
    (currency : String) (entry_type : EntryType) (description : Option String)
    (related_event_id : Option String) (related_payout_id : Option Nat)
    (available_at : Option Int) (now : Int) : LedgerEntry × DBState :=
  let e : LedgerEntry :=
    { id := s.nextEntryId, restaurant_id := restaurant_id
      amount_cents := amount_cents, currency := currency, entry_type := entry_type
      description := description, related_event_id := related_event_id
      related_payout_id := related_payout_id, created_at := now
      available_at := available_at }
  (e, { s with entries := s.entries ++ [e], nextEntryId := s.nextEntryId + 1 })

/-- The rows of ledger_entries for one (restaurant, currency) pair. -/
def entriesFor (s : DBState) (restaurant_id currency : String) : List LedgerEntry :=
  s.entries.filter (fun e => decide (e.restaurant_id = restaurant_id ∧ e.currency = currency))

/-- The availability filter available_at IS NULL OR available_at <= now. -/
def entryAvailable (now : Int) (e : LedgerEntry) : Bool :=
  match e.available_at with
  | none => true
  | some t => decide (t ≤ now)

/-- The pending filter available_at > now. -/
def entryPending (now : Int) (e : LedgerEntry) : Bool :=
  match e.available_at with
  | none => false
  | some t => decide (now < t)

/-- LedgerRepository.get_available_balance: coalesce(sum(amount_cents), 0)
over entries of (restaurant, currency) with available_at null or past. -/
def get_available_balance (s : DBState) (restaurant_id currency : String) (now : Int) : Int :=
  (((entriesFor s restaurant_id currency).filter (entryAvailable now)).map
    (fun e => e.amount_cents)).sum

/-- LedgerRepository.get_pending_balance: coalesce(sum(amount_cents), 0)
over entries of (restaurant, currency) with available_at > now. -/
def get_pending_balance (s : DBState) (restaurant_id currency : String) (now : Int) : Int :=
  (((entriesFor s restaurant_id currency).filter (entryPending now)).map
    (fun e => e.amount_cents)).sum

/-- LedgerRepository.get_last_event_at: max(created_at) over entries of
(restaurant, currency) with related_event_id not null. -/
def get_last_event_at (s : DBState) (restaurant_id currency : String) : Option Int :=
  (((entriesFor s restaurant_id currency).filter (fun e => e.related_event_id.isSome)).map
    (fun e => e.created_at)).max?

/-- The failure of LedgerRepository.get_balance_summary: the statement is
built with func.case((cond, col), else_=...), which is not SQLAlchemy's CASE
construct (sqlalchemy.case) but a generic function call; Function.__init__
rejects the else_ keyword (TypeError on SQLAlchemy 2.x, which the 2.0-style
Mapped models require; on 1.4 the plain tuple fails ColumnsClauseRole
coercion with ArgumentError), so the query raises while being constructed,
before any execution. -/
inductive QueryError
  | funcCaseInvalid
deriving DecidableEq, Repr

/-- LedgerRepository.get_balance_summary: the single conditional-aggregation
query returning (available, pending, last_event_at).  Its statement is built
with func.case((cond, col), else_=...), which raises at construction on every
call (see QueryError.funcCaseInvalid); no row is ever produced. -/
def get_balance_summary (s : DBState) (restaurant_id currency : String) (now : Int) :
    Except QueryError (Int × Int × Option Int) :=
  Except.error QueryError.funcCaseInvalid

/-- Modelled from the spec: LedgerRepository.get_total_balance is invoked by
EventProcessor.process_event and PayoutGenerator.generate_payout but no such
method appears in app/db/repositories/ledger_repository.py as provided; per
spec section 4.1 step 6 and section 3 (total balance = available + pending =
sum of all entries) it returns the process-wide total balance for a currency,
the sum of amount_cents over every ledger entry in that currency. -/
def get_total_balance (s : DBState) (currency : String) : Int :=
  ((s.entries.filter (fun e => decide (e.currency = currency))).map
    (fun e => e.amount_cents)).sum

/-- Modelled from the spec: LedgerRepository.get_available_balance_with_lock is
invoked by PayoutGenerator but no such method appears in
app/db/repositories/ledger_repository.py as provided; per spec sections 4.3
and 5 it returns the available balance for (restaurant, currency) computed
under SELECT FOR UPDATE row locks; in this sequential embedding the lock has
no observable effect, so the value is the available balance. -/
def get_available_balance_with_lock (s : DBState) (restaurant_id currency : String)
    (now : Int) : Int :=
  get_available_balance s restaurant_id currency now

/-! ## PayoutRepository (app/db/repositories/payout_repository.py) -/

/-- PayoutRepository.create_payout: insert a payout with status created; as_of
falls back to the current date (the column's server_default current_date)
when no value is passed. -/
def create_payout (s : DBState) (restaurant_id : String) (amount_cents : Int)
    (currency : String) (as_of : Option Int) (now today : Int) : Payout × DBState :=
  let p : Payout :=
    { id := s.nextPayoutId, restaurant_id := restaurant_id
      amount_cents := amount_cents, currency := currency
      as_of := as_of.getD today, status := PayoutStatus.created
      created_at := now, paid_at := none, failure_reason := none }
  (p, { s with payouts := s.payouts ++ [p], nextPayoutId := s.nextPayoutId + 1 })

/-- PayoutRepository.exists_for_as_of. -/
def exists_for_as_of (s : DBState) (restaurant_id currency : String) (as_of : Int) : Bool :=
  s.payouts.any (fun p =>
    decide (p.restaurant_id = restaurant_id ∧ p.currency = currency ∧ p.as_of = as_of))

/-- PayoutRepository.get_by_id. -/
def get_by_id (s : DBState) (id : Nat) : Option Payout :=
  s.payouts.find? (fun p => decide (p.id = id))

/-- PayoutRepository.create_items: insert one PayoutItem per breakdown pair. -/
def create_items (s : DBState) (payout_id : Nat) (items : List (String × Int)) : DBState :=
  { s with items := s.items ++ items.map (fun it =>
      { payout_id := payout_id, item_type := it.1, amount_cents := it.2 }) }

/-- PayoutRepository.has_pending_payouts: any payout of (restaurant, currency)
with status in {created, processing}. -/
def has_pending_payouts (s : DBState) (restaurant_id currency : String) : Bool :=
  s.payouts.any (fun p =>
    decide (p.restaurant_id = restaurant_id ∧ p.currency = currency ∧
      (p.status = PayoutStatus.created ∨ p.status = PayoutStatus.processing)))

/-- The effect of PayoutRepository.update_status on one payout row: the status
is assigned unconditionally; paid_at is stamped with now exactly when the new
status is paid; failure_reason is overwritten only when one is passed. -/
def applyStatus (payout_id : Nat) (status : PayoutStatus)
    (failure_reason : Option String) (now : Int) (p : Payout) : Payout :=
  if p.id = payout_id then
    { p with
        status := status,
        paid_at := (if status = PayoutStatus.paid then some now else p.paid_at),
        failure_reason := (match failure_reason with
          | some fr => some fr
          | none => p.failure_reason) }
  else p

/-- The post-state of one PayoutRepository.update_status call on the payout
with the given id. -/
def update_status (s : DBState) (payout_id : Nat) (status : PayoutStatus)
    (failure_reason : Option String) (now : Int) : DBState :=
  { s with payouts := s.payouts.map (applyStatus payout_id status failure_reason now) }

/-! ## LedgerService (app/services/ledger_service.py) -/

/-- LedgerService.MATURITY_DAYS. -/
def MATURITY_DAYS : Int := 7

/-- Seconds in a day, the unit of the timedelta embedding. -/
def secondsPerDay : Int := 86400

/-- LedgerService.create_sale_entries: one sale entry with +amount_cents and
available_at = occurred_at + 7 days, then, only when fee_cents > 0, one
commission entry with -fee_cents and available_at null. -/
def create_sale_entries (s : DBState) (restaurant_id event_id : String)
    (amount_cents fee_cents occurred_at : Int) (currency : String) (now : Int) : DBState :=
  let available_at := occurred_at + MATURITY_DAYS * secondsPerDay
  let s1 := (create_entry s restaurant_id amount_cents currency EntryType.sale
    (some ("Sale from event " ++ event_id)) (some event_id) none (some available_at) now).2
  if 0 < fee_cents then
    (create_entry s1 restaurant_id (-fee_cents) currency EntryType.commission
      (some ("Commission for event " ++ event_id)) (some event_id) none none now).2
  else s1

/-- LedgerService.create_refund_entry: one refund entry with -amount_cents and
available_at null. -/
def create_refund_entry (s : DBState) (restaurant_id event_id : String)
    (amount_cents : Int) (currency : String) (now : Int) : DBState :=
  (create_entry s restaurant_id (-amount_cents) currency EntryType.refund
    (some ("Refund from event " ++ event_id)) (some event_id) none none now).2

/-- LedgerService.create_payout_entry: one payout_reserve entry with
-amount_cents, available_at null, linked via related_payout_id. -/
def create_payout_entry (s : DBState) (restaurant_id : String) (payout_id : Nat)
    (amount_cents : Int) (currency : String) (now : Int) : DBState :=
  (create_entry s restaurant_id (-amount_cents) currency EntryType.payout_reserve
    (some ("Payout reserve for payout " ++ toString payout_id)) none (some payout_id)
    none now).2

/-! ## EventProcessor (app/services/event_processor.py) -/

/-- The payout id extracted by EventProcessor._process_payout_paid:
metadata_.get("payout_id") when metadata_ is set, with Python falsiness
(if not payout_id) treating a missing key and the value 0 alike. -/
def getPayoutIdFromMeta (metadata_ : Option EventMetadata) : Option Nat :=
  match metadata_ with
  | none => none
  | some m =>
      match m.payout_id with
      | none => none
      | some 0 => none
      | some n => some n

/-- EventProcessor._process_payout_paid: resolve metadata.payout_id; on a
missing id or an unknown payout log a warning and return unchanged, otherwise
mark the payout paid. -/
def process_payout_paid (s : DBState) (e : ProcessorEvent) (now : Int) : DBState :=
  match getPayoutIdFromMeta e.metadata_ with
  | none => s
  | some payout_id =>
      match get_by_id s payout_id with
      | none => s
      | some _ => update_status s payout_id PayoutStatus.paid none now

/-- The event-type dispatch of EventProcessor.process_event, run only for a
newly inserted event. -/
def dispatch_event (s : DBState) (e : ProcessorEvent) (now : Int) : DBState :=
  match e.event_type with
  | EventType.charge_succeeded =>
      create_sale_entries s e.restaurant_id e.event_id e.amount_cents
        e.fee_cents e.occurred_at e.currency now
  | EventType.refund_succeeded =>
      create_refund_entry s e.restaurant_id e.event_id e.amount_cents
        e.currency now
  | EventType.payout_paid => process_payout_paid s e now

/-- EventProcessor.process_event: upsert the restaurant, store the event (the
idempotency check), and only when the event is new dispatch on event_type to
the ledger service or the payout_paid handler and then recompute the
process-wide balance gauge for the event's currency. -/
def process_event (s : DBState) (d : ProcessorEventCreate) (now : Int) :
    ProcessorEvent × Bool × DBState :=
  let s0 := get_or_create s d.restaurant_id d.restaurant_id
  match create_event s0 d now with
  | (e, false, s1) => (e, false, s1)
  | (e, true, s1) =>
      let s2 := dispatch_event s1 e now
      (e, true, { s2 with balanceGauge := get_total_balance s2 e.currency })

/-! ## PayoutGenerator (app/services/payout_generator.py) -/

/-- PayoutGenerator.MIN_PAYOUT_AMOUNT. -/
def MIN_PAYOUT_AMOUNT : Int := 10000

/-- One group line of PayoutGenerator._get_breakdown_items: emitted only when
the group has at least one row and a nonzero total. -/
def breakdownItem (rows : List LedgerEntry) (label : String) : List (String × Int) :=
  let total := (rows.map (fun e => e.amount_cents)).sum
  if rows.isEmpty then [] else if total = 0 then [] else [(label, total)]

/-- PayoutGenerator._get_breakdown_items: totals of matured entries grouped by
entry_type over {sale, commission, refund}, mapped to item labels in the fixed
order net_sales, fees, refunds, dropping empty or zero groups. -/
def get_breakdown_items (s : DBState) (restaurant_id currency : String) (now : Int) :
    List (String × Int) :=
  let base := (entriesFor s restaurant_id currency).filter (entryAvailable now)
  breakdownItem (base.filter (fun e => decide (e.entry_type = EntryType.sale))) "net_sales" ++
  breakdownItem (base.filter (fun e => decide (e.entry_type = EntryType.commission))) "fees" ++
  breakdownItem (base.filter (fun e => decide (e.entry_type = EntryType.refund))) "refunds"

/-- The creation sequence shared verbatim by both generator paths (steps
2d to 2f of the spec): insert the payout, insert its breakdown items, insert
the reserving ledger entry.  Returns the payout id. -/
def create_payout_with_items (s : DBState) (restaurant_id currency : String)
    (as_of : Option Int) (amount : Int) (now today : Int) : Nat × DBState :=
  let pres := create_payout s restaurant_id amount currency as_of now today
  let s2 := create_items pres.2 pres.1.id
    (get_breakdown_items pres.2 restaurant_id currency now)
  let s3 := create_payout_entry s2 restaurant_id pres.1.id amount currency now
  (pres.1.id, s3)

/-- Typed domain errors raised by the single-restaurant path
(app/exceptions.py). -/
inductive PayoutError
  | pendingPayout (restaurant_id : String)
  | insufficientBalance (restaurant_id : String) (available required : Int)
deriving DecidableEq, Repr

/-- PayoutGenerator.generate_payout (single-restaurant path): reject on a
pending payout, read the locked available balance, reject when it is below
MIN_PAYOUT_AMOUNT, otherwise create payout + items + reserving entry and set
the balance gauge from the total balance. -/
def generate_payout (s : DBState) (d : PayoutCreate) (now today : Int) :
    Except PayoutError (Nat × DBState) :=
  if has_pending_payouts s d.restaurant_id d.currency then
    Except.error (PayoutError.pendingPayout d.restaurant_id)
  else
    let available_balance := get_available_balance_with_lock s d.restaurant_id d.currency now
    if available_balance < MIN_PAYOUT_AMOUNT then
      Except.error (PayoutError.insufficientBalance d.restaurant_id available_balance
        MIN_PAYOUT_AMOUNT)
    else
      let res := create_payout_with_items s d.restaurant_id d.currency none
        available_balance now today
      Except.ok (res.1, { res.2 with balanceGauge := get_total_balance res.2 d.currency })

/-- The database state after one generate_payout call: on a domain error the
transaction leaves the state unchanged. -/
def generate_payout_state (s : DBState) (d : PayoutCreate) (now today : Int) : DBState :=
  match generate_payout s d now today with
  | Except.ok r => r.2
  | Except.error _ => s

/-- The loop body of PayoutGenerator.generate_payouts_batch for one
restaurant: skip on a pending payout, skip when a payout for as_of exists,
read the locked available balance, skip when it is below min_amount,
otherwise create payout + items + reserving entry and count it. -/
def batchStep (d : PayoutRunRequest) (now : Int) (acc : Nat × DBState)
    (restaurant_id : String) : Nat × DBState :=
  if has_pending_payouts acc.2 restaurant_id d.currency then acc
  else if exists_for_as_of acc.2 restaurant_id d.currency d.as_of then acc
  else
    let available_balance :=
      get_available_balance_with_lock acc.2 restaurant_id d.currency now
    if available_balance < d.min_amount then acc
    else
      (acc.1 + 1, (create_payout_with_items acc.2 restaurant_id d.currency
        (some d.as_of) available_balance now now).2)

/-- PayoutGenerator.generate_payouts_batch: iterate the active restaurant ids,
applying the loop body; returns the number of payouts created. -/
def generate_payouts_batch (s : DBState) (d : PayoutRunRequest) (now : Int) :
    Nat × DBState :=
  (list_active_restaurant_ids s).foldl (batchStep d now) (0, s)

/-! ## BalanceCalculator (app/services/balance_calculator.py) -/

/-- Response shape of the balance endpoint, app/schemas/balance.py. -/
structure RestaurantBalance where
  restaurant_id : String
  currency : String
  available_cents : Int
  pending_cents : Int
  total_cents : Int
  last_event_at : Option Int
deriving DecidableEq, Repr

/-- BalanceCalculator.get_balance: await the balance summary and build the
response with total_cents = available + pending.  Since the summary query
raises on every call, the error propagates and the ok branch is dead code. -/
def get_balance (s : DBState) (restaurant_id currency : String) (now : Int) :
    Except QueryError RestaurantBalance :=
  match get_balance_summary s restaurant_id currency now with
  | Except.error e => Except.error e
  | Except.ok r =>
      Except.ok
        { restaurant_id := restaurant_id, currency := currency
          available_cents := r.1, pending_cents := r.2.1
          total_cents := r.1 + r.2.1, last_event_at := r.2.2 }

/-! ## The operational surface and reachability

The system's state changes through the service entry points (event ingestion,
the two payout-generation paths) and through PayoutRepository.update_status,
the one status writer (the spec's created/processing to failed transition has
no caller inside app/, so the repository operation itself is the surface).
A flush of update_status must satisfy the paid_at_consistency check
constraint of models/payout.py: status = paid iff paid_at is non-null; since
update_status never clears paid_at, an update of a payout whose paid_at is
already set to any status other than paid would violate the constraint, so
only calls passing UpdateStatusOk commit. -/

/-- The DB-level precondition for update_status to commit: for the targeted
payout, either the new status is paid (paid_at gets stamped) or the payout
has no paid_at yet (so a non-paid status keeps paid_at null). -/
def UpdateStatusOk (s : DBState) (payout_id : Nat) (status : PayoutStatus) : Prop :=
  ∀ p ∈ s.payouts, p.id = payout_id →
    (status = PayoutStatus.paid ∨ p.paid_at = none)

/-- One committed transaction of the system. -/
inductive Step : DBState → DBState → Prop
  | process_ev (s : DBState) (d : ProcessorEventCreate) (now : Int) (hv : d.Valid) :
      Step s (process_event s d now).2.2
  | gen_payout (s : DBState) (d : PayoutCreate) (now today : Int) :
      Step s (generate_payout_state s d now today)
  | gen_batch (s : DBState) (d : PayoutRunRequest) (now : Int) (hv : d.Valid) :
      Step s (generate_payouts_batch s d now).2
  | upd_status (s : DBState) (payout_id : Nat) (st : PayoutStatus)
      (failure_reason : Option String) (now : Int)
      (hok : UpdateStatusOk s payout_id st) :
      Step s (update_status s payout_id st failure_reason now)

/-- States reachable from the empty database through committed transactions. -/
def Reachable (s : DBState) : Prop :=
  Relation.ReflTransGen Step initState s

instance (s : DBState) (payout_id : Nat) (status : PayoutStatus) :
    Decidable (UpdateStatusOk s payout_id status) := by
  unfold UpdateStatusOk
  infer_instance

/-! ## Invariant vocabulary -/

/-- The sign discipline the ledger actually enforces: sale entries carry the
event amount (validated nonnegative), commission entries a strictly negative
fee, refund entries the negated nonnegative refund amount, payout_reserve
entries the negated strictly positive payout amount. -/
def entrySignOk (e : LedgerEntry) : Prop :=
  match e.entry_type with
  | EntryType.sale => 0 ≤ e.amount_cents
  | EntryType.commission => e.amount_cents < 0
  | EntryType.refund => e.amount_cents ≤ 0
  | EntryType.payout_reserve => e.amount_cents < 0

/-- The strict sign discipline asserted by the spec invariant table:
every entry type strictly signed. -/
def entrySignStrict (e : LedgerEntry) : Prop :=
  match e.entry_type with
  | EntryType.sale => 0 < e.amount_cents
  | EntryType.commission => e.amount_cents < 0
  | EntryType.refund => e.amount_cents < 0
  | EntryType.payout_reserve => e.amount_cents < 0

instance (e : LedgerEntry) : Decidable (entrySignOk e) := by
  unfold entrySignOk
  exact match e.entry_type with
  | EntryType.sale => inferInstanceAs (Decidable (0 ≤ e.amount_cents))
  | EntryType.commission => inferInstanceAs (Decidable (e.amount_cents < 0))
  | EntryType.refund => inferInstanceAs (Decidable (e.amount_cents ≤ 0))
  | EntryType.payout_reserve => inferInstanceAs (Decidable (e.amount_cents < 0))

instance (e : LedgerEntry) : Decidable (entrySignStrict e) := by
  unfold entrySignStrict
  exact match e.entry_type with
  | EntryType.sale => inferInstanceAs (Decidable (0 < e.amount_cents))
  | EntryType.commission => inferInstanceAs (Decidable (e.amount_cents < 0))
  | EntryType.refund => inferInstanceAs (Decidable (e.amount_cents < 0))
  | EntryType.payout_reserve => inferInstanceAs (Decidable (e.amount_cents < 0))

/-- The payout_reserve entries linked to a given payout id. -/
def reserveFor (s : DBState) (payout_id : Nat) : List LedgerEntry :=
  s.entries.filter (fun e =>
    decide (e.entry_type = EntryType.payout_reserve ∧ e.related_payout_id = some payout_id))

/-- The inductive invariant of reachable states used by the invariant claims:
payout ids are below the autoincrement counter and pairwise distinct, every
reserve link points below the counter, every created payout has exactly its
one reserving entry, paid_at is set exactly on paid payouts, and every entry
obeys the sign discipline. -/
structure Inv (s : DBState) : Prop where
  payout_id_lt : ∀ p ∈ s.payouts, p.id < s.nextPayoutId
  entry_payout_lt : ∀ e ∈ s.entries, ∀ pid, e.related_payout_id = some pid →
    pid < s.nextPayoutId
  ids_distinct : s.payouts.Pairwise (fun p q => p.id ≠ q.id)
  reserve : ∀ p ∈ s.payouts,
    (reserveFor s p.id).map (fun e => e.amount_cents) = [-p.amount_cents]
  paid_at_iff : ∀ p ∈ s.payouts, (p.status = PayoutStatus.paid ↔ p.paid_at ≠ none)
  sign : ∀ e ∈ s.entries, entrySignOk e

/-! ## Concrete executions used by witnesses and counterexamples -/

/-- A valid matured charge: occurred seven days before instant 0. -/
def exCharge : ProcessorEventCreate :=
  { event_id := "evt_1", event_type := EventType.charge_succeeded, occurred_at := -604800,
    restaurant_id := "res_a", currency := "PEN", amount_cents := 20000, fee_cents := 250,
    metadata := none }

/-- A valid charge with amount_cents = 0 (admitted by validation, ge=0). -/
def exZeroCharge : ProcessorEventCreate :=
  { event_id := "evt_z", event_type := EventType.charge_succeeded, occurred_at := 0,
    restaurant_id := "res_z", currency := "PEN", amount_cents := 0, fee_cents := 0,
    metadata := none }

/-- A valid payout_paid event naming payout 1 in its metadata. -/
def exPaidEvt : ProcessorEventCreate :=
  { event_id := "evt_2", event_type := EventType.payout_paid, occurred_at := 0,
    restaurant_id := "res_a", currency := "PEN", amount_cents := 0, fee_cents := 0,
    metadata := some { payout_id := some 1 } }

/-- A second valid charge used to step past a paid payout. -/
def exCharge3 : ProcessorEventCreate :=
  { event_id := "evt_3", event_type := EventType.charge_succeeded, occurred_at := 0,
    restaurant_id := "res_a", currency := "PEN", amount_cents := 500, fee_cents := 0,
    metadata := none }

/-- State after ingesting the matured charge into the empty database. -/
def exS1 : DBState := (process_event initState exCharge 0).2.2

/-- State after the single-restaurant payout generation on exS1: one payout
(id 1, 19750 cents) with its reserving entry. -/
def exS2 : DBState := generate_payout_state exS1 { restaurant_id := "res_a", currency := "PEN" } 0 0

/-- State after marking payout 1 failed through the repository operation. -/
def exS3 : DBState := update_status exS2 1 PayoutStatus.failed (some "bank rejected") 0

/-- State after ingesting a payout_paid event naming the failed payout 1. -/
def exS4 : DBState := (process_event exS3 exPaidEvt 5).2.2

/-- State after one more charge on top of the paid payout. -/
def exS5 : DBState := (process_event exS4 exCharge3 6).2.2

/-- State after ingesting the zero-amount charge into the empty database. -/
def exZ1 : DBState := (process_event initState exZeroCharge 0).2.2

/-! ## Generic list lemmas -/

theorem sum_map_filter_partition (l : List LedgerEntry) (p : LedgerEntry → Bool)
    (f : LedgerEntry → Int) :
    ((l.filter p).map f).sum + ((l.filter (fun e => !(p e))).map f).sum
      = (l.map f).sum := by
  induction l with
  | nil => simp
  | cons a t ih =>
      cases hp : p a <;> simp [List.filter_cons, hp] <;> linarith [ih]

theorem find?_append_of_none {α} (p : α → Bool) (l1 l2 : List α)
    (h : ∀ x ∈ l1, p x = false) : (l1 ++ l2).find? p = l2.find? p := by
  induction l1 with
  | nil => simp
  | cons a t ih =>
      have ha := h a (by simp)
      simp only [List.cons_append, List.find?]
      rw [ha]
      exact ih (fun x hx => h x (by simp [hx]))

theorem mem_unique_of_pairwise_ne {l : List Payout} (hnd : l.Pairwise (fun p q => p.id ≠ q.id))
    {p q : Payout} (hp : p ∈ l) (hq : q ∈ l) (hid : p.id = q.id) : p = q := by
  induction l with
  | nil => cases hp
  | cons a t ih =>
      rcases List.pairwise_cons.mp hnd with ⟨ha, ht⟩
      rcases List.mem_cons.mp hp with rfl | hp' <;>
        rcases List.mem_cons.mp hq with rfl | hq'
      · rfl
      · exact absurd hid (ha q hq')
      · exact absurd hid.symm (ha p hp')
      · exact ih ht hp' hq'

/-! ## Projection lemmas for the repository operations -/

theorem get_or_create_events (s : DBState) (rid n : String) :
    (get_or_create s rid n).events = s.events := by
  unfold get_or_create
  split <;> rfl

theorem get_or_create_entries (s : DBState) (rid n : String) :
    (get_or_create s rid n).entries = s.entries := by
  unfold get_or_create
  split <;> rfl

theorem get_or_create_payouts (s : DBState) (rid n : String) :
    (get_or_create s rid n).payouts = s.payouts := by
  unfold get_or_create
  split <;> rfl

theorem get_or_create_nextPayoutId (s : DBState) (rid n : String) :
    (get_or_create s rid n).nextPayoutId = s.nextPayoutId := by
  unfold get_or_create
  split <;> rfl

theorem get_or_create_nextEventId (s : DBState) (rid n : String) :
    (get_or_create s rid n).nextEventId = s.nextEventId := by
  unfold get_or_create
  split <;> rfl

theorem get_or_create_has (s : DBState) (rid n : String) :
    (get_or_create s rid n).restaurants.any (fun r => decide (r.id = rid)) = true := by
  unfold get_or_create
  split
  · assumption
  · simp

theorem get_or_create_of_has (s : DBState) (rid n : String)
    (h : s.restaurants.any (fun r => decide (r.id = rid)) = true) :
    get_or_create s rid n = s := by
  unfold get_or_create
  simp [h]

theorem update_status_entries (s : DBState) (pid : Nat) (st : PayoutStatus)
    (fr : Option String) (now : Int) :
    (update_status s pid st fr now).entries = s.entries := rfl

theorem update_status_events (s : DBState) (pid : Nat) (st : PayoutStatus)
    (fr : Option String) (now : Int) :
    (update_status s pid st fr now).events = s.events := rfl

theorem update_status_restaurants (s : DBState) (pid : Nat) (st : PayoutStatus)
    (fr : Option String) (now : Int) :
    (update_status s pid st fr now).restaurants = s.restaurants := rfl

theorem update_status_nextPayoutId (s : DBState) (pid : Nat) (st : PayoutStatus)
    (fr : Option String) (now : Int) :
    (update_status s pid st fr now).nextPayoutId = s.nextPayoutId := rfl

theorem update_status_payouts (s : DBState) (pid : Nat) (st : PayoutStatus)
    (fr : Option String) (now : Int) :
    (update_status s pid st fr now).payouts
      = s.payouts.map (applyStatus pid st fr now) := rfl

theorem applyStatus_id (pid : Nat) (st : PayoutStatus) (fr : Option String) (now : Int)
    (p : Payout) : (applyStatus pid st fr now p).id = p.id := by
  unfold applyStatus
  split <;> rfl

theorem applyStatus_amount (pid : Nat) (st : PayoutStatus) (fr : Option String) (now : Int)
    (p : Payout) : (applyStatus pid st fr now p).amount_cents = p.amount_cents := by
  unfold applyStatus
  split <;> rfl

theorem applyStatus_of_ne (pid : Nat) (st : PayoutStatus) (fr : Option String) (now : Int)
    (p : Payout) (h : ¬ p.id = pid) : applyStatus pid st fr now p = p := by
  unfold applyStatus
  simp [h]

theorem applyStatus_of_eq (pid : Nat) (st : PayoutStatus) (fr : Option String) (now : Int)
    (p : Payout) (h : p.id = pid) :
    applyStatus pid st fr now p =
      { p with
          status := st,
          paid_at := (if st = PayoutStatus.paid then some now else p.paid_at),
          failure_reason := (match fr with
            | some fr => some fr
            | none => p.failure_reason) } := by
  unfold applyStatus
  simp [h]

/-! ## Shape lemmas for the ledger service -/

/-- The sale row written by create_sale_entries. -/
def saleEntryOf (s : DBState) (restaurant_id event_id : String)
    (amount_cents occurred_at : Int) (currency : String) (now : Int) : LedgerEntry :=
  { id := s.nextEntryId, restaurant_id := restaurant_id, amount_cents := amount_cents,
    currency := currency, entry_type := EntryType.sale,
    description := some ("Sale from event " ++ event_id),
    related_event_id := some event_id, related_payout_id := none,
    created_at := now,
    available_at := some (occurred_at + MATURITY_DAYS * secondsPerDay) }

/-- The commission row written by create_sale_entries when fee_cents > 0. -/
def commissionEntryOf (s : DBState) (restaurant_id event_id : String)
    (fee_cents : Int) (currency : String) (now : Int) : LedgerEntry :=
  { id := s.nextEntryId + 1, restaurant_id := restaurant_id, amount_cents := -fee_cents,
    currency := currency, entry_type := EntryType.commission,
    description := some ("Commission for event " ++ event_id),
    related_event_id := some event_id, related_payout_id := none,
    created_at := now, available_at := none }

theorem create_sale_entries_eq (s : DBState) (r eid : String) (amt fee occ : Int)
    (c : String) (now : Int) :
    create_sale_entries s r eid amt fee occ c now =
      { s with
          entries := s.entries ++
            (saleEntryOf s r eid amt occ c now ::
              (if 0 < fee then [commissionEntryOf s r eid fee c now] else [])),
          nextEntryId := s.nextEntryId + (if 0 < fee then 2 else 1) } := by
  unfold create_sale_entries create_entry saleEntryOf commissionEntryOf
  split <;> simp

/-- The refund row written by create_refund_entry. -/
def refundEntryOf (s : DBState) (restaurant_id event_id : String)
    (amount_cents : Int) (currency : String) (now : Int) : LedgerEntry :=
  { id := s.nextEntryId, restaurant_id := restaurant_id, amount_cents := -amount_cents,
    currency := currency, entry_type := EntryType.refund,
    description := some ("Refund from event " ++ event_id),
    related_event_id := some event_id, related_payout_id := none,
    created_at := now, available_at := none }

theorem create_refund_entry_eq (s : DBState) (r eid : String) (amt : Int)
    (c : String) (now : Int) :
    create_refund_entry s r eid amt c now =
      { s with
          entries := s.entries ++ [refundEntryOf s r eid amt c now],
          nextEntryId := s.nextEntryId + 1 } := by
  unfold create_refund_entry create_entry refundEntryOf
  rfl

/-- The reserving row written by create_payout_entry. -/
def reserveEntryOf (s : DBState) (restaurant_id : String) (payout_id : Nat)
    (amount_cents : Int) (currency : String) (now : Int) : LedgerEntry :=
  { id := s.nextEntryId, restaurant_id := restaurant_id, amount_cents := -amount_cents,
    currency := currency, entry_type := EntryType.payout_reserve,
    description := some ("Payout reserve for payout " ++ toString payout_id),
    related_event_id := none, related_payout_id := some payout_id,
    created_at := now, available_at := none }

theorem create_payout_entry_eq (s : DBState) (r : String) (pid : Nat) (amt : Int)
    (c : String) (now : Int) :
    create_payout_entry s r pid amt c now =
      { s with
          entries := s.entries ++ [reserveEntryOf s r pid amt c now],
          nextEntryId := s.nextEntryId + 1 } := by
  unfold create_payout_entry create_entry reserveEntryOf
  rfl

/-! ## Shape lemmas for the payout repository and generator -/

theorem create_payout_fst (s : DBState) (r : String) (amt : Int) (c : String)
    (as_of : Option Int) (now today : Int) :
    (create_payout s r amt c as_of now today).1 =
      { id := s.nextPayoutId, restaurant_id := r, amount_cents := amt, currency := c,
        as_of := as_of.getD today, status := PayoutStatus.created, created_at := now,
        paid_at := none, failure_reason := none } := rfl

theorem create_payout_snd (s : DBState) (r : String) (amt : Int) (c : String)
    (as_of : Option Int) (now today : Int) :
    (create_payout s r amt c as_of now today).2 =
      { s with
          payouts := s.payouts ++ [(create_payout s r amt c as_of now today).1],
          nextPayoutId := s.nextPayoutId + 1 } := rfl

theorem create_items_entries (s : DBState) (pid : Nat) (items : List (String × Int)) :
    (create_items s pid items).entries = s.entries := rfl

theorem create_items_payouts (s : DBState) (pid : Nat) (items : List (String × Int)) :
    (create_items s pid items).payouts = s.payouts := rfl

theorem create_items_nextPayoutId (s : DBState) (pid : Nat) (items : List (String × Int)) :
    (create_items s pid items).nextPayoutId = s.nextPayoutId := rfl

theorem create_items_nextEntryId (s : DBState) (pid : Nat) (items : List (String × Int)) :
    (create_items s pid items).nextEntryId = s.nextEntryId := rfl

theorem create_items_events (s : DBState) (pid : Nat) (items : List (String × Int)) :
    (create_items s pid items).events = s.events := rfl

theorem create_items_restaurants (s : DBState) (pid : Nat) (items : List (String × Int)) :
    (create_items s pid items).restaurants = s.restaurants := rfl

/-- The full effect of the shared creation sequence on the fields the
invariants read: one payout appended, one reserving entry appended, the
payout counter bumped. -/
theorem create_payout_with_items_shape (s : DBState) (r c : String) (as_of : Option Int)
    (amt : Int) (now today : Int) :
    (create_payout_with_items s r c as_of amt now today).1 = s.nextPayoutId ∧
    (create_payout_with_items s r c as_of amt now today).2.payouts =
      s.payouts ++ [(create_payout s r amt c as_of now today).1] ∧
    (create_payout_with_items s r c as_of amt now today).2.entries =
      s.entries ++ [reserveEntryOf
        (create_items (create_payout s r amt c as_of now today).2 s.nextPayoutId
          (get_breakdown_items (create_payout s r amt c as_of now today).2 r c now))
        r s.nextPayoutId amt c now] ∧
    (create_payout_with_items s r c as_of amt now today).2.nextPayoutId =
      s.nextPayoutId + 1 ∧
    (create_payout_with_items s r c as_of amt now today).2.events = s.events ∧
    (create_payout_with_items s r c as_of amt now today).2.restaurants = s.restaurants := by
  unfold create_payout_with_items
  refine ⟨rfl, ?_, ?_, ?_, ?_, ?_⟩ <;>
    simp [create_payout_entry_eq, create_items_entries, create_items_payouts,
      create_payout_snd, create_payout_fst, create_items_nextPayoutId,
      create_items_events, create_items_restaurants]

/-! ## Characterization of the event processor -/

theorem process_payout_paid_cases (s : DBState) (e : ProcessorEvent) (now : Int) :
    process_payout_paid s e now = s ∨
      (∃ pid, getPayoutIdFromMeta e.metadata_ = some pid ∧
        process_payout_paid s e now = update_status s pid PayoutStatus.paid none now) := by
  unfold process_payout_paid
  cases h : getPayoutIdFromMeta e.metadata_ with
  | none => exact Or.inl rfl
  | some pid =>
      cases hg : get_by_id s pid with
      | none => simp [hg]
      | some p => exact Or.inr ⟨pid, rfl, by simp [hg]⟩

theorem dispatch_event_events (s : DBState) (e : ProcessorEvent) (now : Int) :
    (dispatch_event s e now).events = s.events := by
  unfold dispatch_event
  cases e.event_type
  · rw [create_sale_entries_eq]
  · rw [create_refund_entry_eq]
  · rcases process_payout_paid_cases s e now with h | ⟨pid, _, h⟩ <;> rw [h] <;> rfl

theorem dispatch_event_restaurants (s : DBState) (e : ProcessorEvent) (now : Int) :
    (dispatch_event s e now).restaurants = s.restaurants := by
  unfold dispatch_event
  cases e.event_type
  · rw [create_sale_entries_eq]
  · rw [create_refund_entry_eq]
  · rcases process_payout_paid_cases s e now with h | ⟨pid, _, h⟩ <;> rw [h] <;> rfl

theorem dispatch_event_nextPayoutId (s : DBState) (e : ProcessorEvent) (now : Int) :
    (dispatch_event s e now).nextPayoutId = s.nextPayoutId := by
  unfold dispatch_event
  cases e.event_type
  · rw [create_sale_entries_eq]
  · rw [create_refund_entry_eq]
  · rcases process_payout_paid_cases s e now with h | ⟨pid, _, h⟩ <;> rw [h] <;> rfl

/-- The stored ProcessorEvent row of a fresh ingestion. -/
def storedEventOf (s : DBState) (d : ProcessorEventCreate) (now : Int) : ProcessorEvent :=
  { id := s.nextEventId, event_id := d.event_id, event_type := d.event_type,
    occurred_at := d.occurred_at, restaurant_id := d.restaurant_id,
    currency := d.currency, amount_cents := d.amount_cents,
    fee_cents := d.fee_cents, created_at := now, metadata_ := d.metadata }

/-- The intermediate state of process_event right after the insert of a fresh
event, before the dispatch. -/
def insertedStateOf (s : DBState) (d : ProcessorEventCreate) (now : Int) : DBState :=
  let s0 := get_or_create s d.restaurant_id d.restaurant_id
  { s0 with
      events := s0.events ++ [storedEventOf s d now],
      nextEventId := s0.nextEventId + 1 }

theorem process_event_new_eq (s : DBState) (d : ProcessorEventCreate) (now : Int)
    (hnew : ∀ e ∈ s.events, ¬ e.event_id = d.event_id) :
    process_event s d now =
      (storedEventOf s d now, true,
        { dispatch_event (insertedStateOf s d now) (storedEventOf s d now) now with
            balanceGauge :=
              get_total_balance
                (dispatch_event (insertedStateOf s d now) (storedEventOf s d now) now)
                d.currency }) := by
  unfold process_event create_event
  have hfind : (get_or_create s d.restaurant_id d.restaurant_id).events.find?
      (fun e => decide (e.event_id = d.event_id)) = none := by
    rw [List.find?_eq_none]
    intro x hx
    rw [get_or_create_events] at hx
    simpa using hnew x hx
  simp only [hfind]
  simp only [insertedStateOf, storedEventOf, get_or_create_nextEventId]

theorem process_event_found_eq (s : DBState) (d : ProcessorEventCreate) (now : Int)
    (e : ProcessorEvent)
    (hfound : (get_or_create s d.restaurant_id d.restaurant_id).events.find?
      (fun e => decide (e.event_id = d.event_id)) = some e) :
    process_event s d now = (e, false, get_or_create s d.restaurant_id d.restaurant_id) := by
  unfold process_event create_event
  simp only [hfound]

/-! ## Invariant preservation -/

theorem reserveFor_congr {s s' : DBState} (h : s'.entries = s.entries) (pid : Nat) :
    reserveFor s' pid = reserveFor s pid := by
  unfold reserveFor
  rw [h]

theorem Inv_of_fields (s s' : DBState) (he : s'.entries = s.entries)
    (hp : s'.payouts = s.payouts) (hn : s'.nextPayoutId = s.nextPayoutId)
    (h : Inv s) : Inv s' := by
  refine ⟨?_, ?_, ?_, ?_, ?_, ?_⟩
  · rw [hp, hn]; exact h.payout_id_lt
  · rw [he, hn]; exact h.entry_payout_lt
  · rw [hp]; exact h.ids_distinct
  · intro p hmem
    rw [reserveFor_congr he]
    exact h.reserve p (hp ▸ hmem)
  · rw [hp]; exact h.paid_at_iff
  · rw [he]; exact h.sign

theorem reserveFor_append {s s' : DBState} {L : List LedgerEntry}
    (he : s'.entries = s.entries ++ L) (pid : Nat) :
    reserveFor s' pid = reserveFor s pid ++ L.filter (fun e =>
      decide (e.entry_type = EntryType.payout_reserve ∧ e.related_payout_id = some pid)) := by
  unfold reserveFor
  rw [he, List.filter_append]

/-- Appending entries that carry no payout link preserves the invariant. -/
theorem Inv_append_entries {s s' : DBState} {L : List LedgerEntry} (h : Inv s)
    (hL : ∀ x ∈ L, x.related_payout_id = none ∧ entrySignOk x)
    (he : s'.entries = s.entries ++ L) (hp : s'.payouts = s.payouts)
    (hn : s'.nextPayoutId = s.nextPayoutId) : Inv s' := by
  have hLfilter : ∀ pid : Nat, L.filter (fun e =>
      decide (e.entry_type = EntryType.payout_reserve ∧ e.related_payout_id = some pid)) = [] := by
    intro pid
    rw [List.filter_eq_nil_iff]
    intro a ha
    have := (hL a ha).1
    simp [this]
  refine ⟨?_, ?_, ?_, ?_, ?_, ?_⟩
  · rw [hp, hn]; exact h.payout_id_lt
  · rw [he, hn]
    intro e hmem pid hrel
    rcases List.mem_append.mp hmem with hmem | hmem
    · exact h.entry_payout_lt e hmem pid hrel
    · exact absurd hrel (by simp [(hL e hmem).1])
  · rw [hp]; exact h.ids_distinct
  · intro p hmem
    rw [reserveFor_append he, hLfilter, List.append_nil]
    exact h.reserve p (hp ▸ hmem)
  · rw [hp]; exact h.paid_at_iff
  · rw [he]
    intro e hmem
    rcases List.mem_append.mp hmem with hmem | hmem
    · exact h.sign e hmem
    · exact (hL e hmem).2

theorem inv_update_status {s : DBState} (h : Inv s) (pid : Nat) (st : PayoutStatus)
    (fr : Option String) (now : Int) (hok : UpdateStatusOk s pid st) :
    Inv (update_status s pid st fr now) := by
  refine ⟨?_, ?_, ?_, ?_, ?_, ?_⟩
  · rw [update_status_payouts, update_status_nextPayoutId]
    intro p hmem
    rcases List.mem_map.mp hmem with ⟨q, hq, rfl⟩
    rw [applyStatus_id]
    exact h.payout_id_lt q hq
  · rw [update_status_entries, update_status_nextPayoutId]
    exact h.entry_payout_lt
  · rw [update_status_payouts]
    exact List.Pairwise.map _ (fun a b hab => by
      rw [applyStatus_id, applyStatus_id]; exact hab) h.ids_distinct
  · intro p hmem
    rw [update_status_payouts] at hmem
    rcases List.mem_map.mp hmem with ⟨q, hq, rfl⟩
    rw [reserveFor_congr (update_status_entries s pid st fr now), applyStatus_id,
      applyStatus_amount]
    exact h.reserve q hq
  · intro p hmem
    rw [update_status_payouts] at hmem
    rcases List.mem_map.mp hmem with ⟨q, hq, rfl⟩
    by_cases hid : q.id = pid
    · rw [applyStatus_of_eq _ _ _ _ _ hid]
      by_cases hst : st = PayoutStatus.paid
      · simp [hst]
      · rcases hok q hq hid with hst' | hpa
        · exact absurd hst' hst
        · simp [hst, hpa]
    · rw [applyStatus_of_ne _ _ _ _ _ hid]
      exact h.paid_at_iff q hq
  · rw [update_status_entries]
    exact h.sign

theorem inv_create_payout_with_items {s : DBState} (h : Inv s) (r c : String)
    (as_of : Option Int) (amt : Int) (now today : Int) (hamt : 0 < amt) :
    Inv (create_payout_with_items s r c as_of amt now today).2 := by
  obtain ⟨-, hpay, hent, hnext, -, -⟩ := create_payout_with_items_shape s r c as_of amt now today
  set P := (create_payout s r amt c as_of now today).1 with hP
  set E := reserveEntryOf
    (create_items (create_payout s r amt c as_of now today).2 s.nextPayoutId
      (get_breakdown_items (create_payout s r amt c as_of now today).2 r c now))
    r s.nextPayoutId amt c now with hE
  have hPid : P.id = s.nextPayoutId := rfl
  have hPamt : P.amount_cents = amt := rfl
  have hPstatus : P.status = PayoutStatus.created := rfl
  have hPpaid : P.paid_at = none := rfl
  have hErel : E.related_payout_id = some s.nextPayoutId := rfl
  have hEtype : E.entry_type = EntryType.payout_reserve := rfl
  have hEamt : E.amount_cents = -amt := rfl
  refine ⟨?_, ?_, ?_, ?_, ?_, ?_⟩
  · rw [hpay, hnext]
    intro p hmem
    rcases List.mem_append.mp hmem with hmem | hmem
    · exact Nat.lt_succ_of_lt (h.payout_id_lt p hmem)
    · rcases List.mem_singleton.mp hmem with rfl
      rw [hPid]
      exact Nat.lt_succ_self _
  · rw [hent, hnext]
    intro e hmem pid hrel
    rcases List.mem_append.mp hmem with hmem | hmem
    · exact Nat.lt_succ_of_lt (h.entry_payout_lt e hmem pid hrel)
    · rcases List.mem_singleton.mp hmem with rfl
      rw [hErel] at hrel
      injection hrel with h'
      omega
  · rw [hpay]
    rw [List.pairwise_append]
    refine ⟨h.ids_distinct, List.pairwise_singleton _ _, ?_⟩
    intro p hp q hq
    rcases List.mem_singleton.mp hq with rfl
    rw [hPid]
    exact Nat.ne_of_lt (h.payout_id_lt p hp)
  · intro p hmem
    have hres : reserveFor (create_payout_with_items s r c as_of amt now today).2 p.id =
        reserveFor s p.id ++ [E].filter (fun e =>
          decide (e.entry_type = EntryType.payout_reserve ∧ e.related_payout_id = some p.id)) :=
      reserveFor_append hent p.id
    rw [hpay] at hmem
    rcases List.mem_append.mp hmem with hmem | hmem
    · have hne : ¬ E.related_payout_id = some p.id := by
        rw [hErel]
        intro hcon
        injection hcon with h'
        exact absurd h'.symm (Nat.ne_of_lt (h.payout_id_lt p hmem))
      rw [hres]
      have : [E].filter (fun e =>
          decide (e.entry_type = EntryType.payout_reserve ∧ e.related_payout_id = some p.id)) = [] := by
        simp [hne]
      rw [this, List.append_nil]
      exact h.reserve p hmem
    · rcases List.mem_singleton.mp hmem with rfl
      rw [hres]
      have hold : reserveFor s P.id = [] := by
        unfold reserveFor
        rw [List.filter_eq_nil_iff]
        intro e he
        simp only [decide_eq_true_eq, not_and]
        intro _ hrel
        have hlt := h.entry_payout_lt e he _ hrel
        rw [hPid] at hlt
        exact absurd hlt (lt_irrefl _)
      have hkeep : [E].filter (fun e =>
          decide (e.entry_type = EntryType.payout_reserve ∧ e.related_payout_id = some P.id)) = [E] := by
        simp [hEtype, hErel, hPid]
      rw [hold, List.nil_append, hkeep]
      simp [hEamt, hPamt]
  · intro p hmem
    rw [hpay] at hmem
    rcases List.mem_append.mp hmem with hmem | hmem
    · exact h.paid_at_iff p hmem
    · rcases List.mem_singleton.mp hmem with rfl
      rw [hPstatus, hPpaid]
      simp
  · rw [hent]
    intro e hmem
    rcases List.mem_append.mp hmem with hmem | hmem
    · exact h.sign e hmem
    · rcases List.mem_singleton.mp hmem with rfl
      unfold entrySignOk
      rw [hEtype]
      rw [hEamt]
      omega

theorem inv_generate_payout_state {s : DBState} (h : Inv s) (d : PayoutCreate)
    (now today : Int) : Inv (generate_payout_state s d now today) := by
  unfold generate_payout_state generate_payout
  by_cases h1 : has_pending_payouts s d.restaurant_id d.currency
  · simp only [h1, if_true]
    exact h
  · simp only [h1, if_false, Bool.false_eq_true]
    by_cases h2 : get_available_balance_with_lock s d.restaurant_id d.currency now <
        MIN_PAYOUT_AMOUNT
    · simp only [h2, if_true]
      exact h
    · simp only [h2, if_false]
      refine Inv_of_fields
        (create_payout_with_items s d.restaurant_id d.currency none
          (get_available_balance_with_lock s d.restaurant_id d.currency now) now today).2 _
        rfl rfl rfl ?_
      refine inv_create_payout_with_items h _ _ _ _ _ _ ?_
      have : (10000 : Int) ≤ get_available_balance_with_lock s d.restaurant_id d.currency now := by
        simpa [MIN_PAYOUT_AMOUNT] using not_lt.mp h2
      omega

theorem inv_batchStep {d : PayoutRunRequest} (hmin : 0 < d.min_amount) (now : Int)
    {acc : Nat × DBState} (h : Inv acc.2) (rid : String) :
    Inv (batchStep d now acc rid).2 := by
  unfold batchStep
  by_cases h1 : has_pending_payouts acc.2 rid d.currency
  · simpa only [h1, if_true] using h
  · simp only [h1, if_false, Bool.false_eq_true]
    by_cases h2 : exists_for_as_of acc.2 rid d.currency d.as_of
    · simpa only [h2, if_true] using h
    · simp only [h2, if_false, Bool.false_eq_true]
      by_cases h3 : get_available_balance_with_lock acc.2 rid d.currency now < d.min_amount
      · simpa only [h3, if_true] using h
      · simp only [h3, if_false]
        refine inv_create_payout_with_items h _ _ _ _ _ _ ?_
        have := not_lt.mp h3
        omega

theorem inv_batch_fold {d : PayoutRunRequest} (hmin : 0 < d.min_amount) (now : Int)
    (rids : List String) :
    ∀ acc : Nat × DBState, Inv acc.2 → Inv (rids.foldl (batchStep d now) acc).2 := by
  induction rids with
  | nil => intro acc h; exact h
  | cons a t ih =>
      intro acc h
      exact ih _ (inv_batchStep hmin now h a)

theorem inv_dispatch_event {s : DBState} (h : Inv s) (e : ProcessorEvent) (now : Int)
    (hamt : 0 ≤ e.amount_cents) : Inv (dispatch_event s e now) := by
  unfold dispatch_event
  cases he : e.event_type
  · rw [create_sale_entries_eq]
    refine Inv_append_entries h ?_ rfl rfl rfl
    intro x hx
    rcases List.mem_cons.mp hx with rfl | hx
    · exact ⟨rfl, by unfold entrySignOk saleEntryOf; simpa using hamt⟩
    · by_cases hf : 0 < e.fee_cents
      · rw [if_pos hf] at hx
        rcases List.mem_singleton.mp hx with rfl
        refine ⟨rfl, ?_⟩
        unfold entrySignOk commissionEntryOf
        simpa using hf
      · rw [if_neg hf] at hx
        cases hx
  · rw [create_refund_entry_eq]
    refine Inv_append_entries h ?_ rfl rfl rfl
    intro x hx
    rcases List.mem_singleton.mp hx with rfl
    refine ⟨rfl, ?_⟩
    unfold entrySignOk refundEntryOf
    simpa using hamt
  · rcases process_payout_paid_cases s e now with hc | ⟨pid, -, hc⟩ <;> rw [hc]
    · exact h
    · exact inv_update_status h pid PayoutStatus.paid none now
        (fun p _ _ => Or.inl rfl)

theorem inv_process_event {s : DBState} (h : Inv s) (d : ProcessorEventCreate)
    (now : Int) (hv : d.Valid) : Inv (process_event s d now).2.2 := by
  have h0 : Inv (get_or_create s d.restaurant_id d.restaurant_id) :=
    Inv_of_fields s _ (get_or_create_entries s _ _) (get_or_create_payouts s _ _)
      (get_or_create_nextPayoutId s _ _) h
  cases hfind : (get_or_create s d.restaurant_id d.restaurant_id).events.find?
      (fun e => decide (e.event_id = d.event_id)) with
  | some e =>
      rw [process_event_found_eq s d now e hfind]
      exact h0
  | none =>
      have hnew : ∀ e ∈ s.events, ¬ e.event_id = d.event_id := by
        intro e he
        have := List.find?_eq_none.mp hfind e (by rwa [get_or_create_events])
        simpa using this
      rw [process_event_new_eq s d now hnew]
      have h1 : Inv (insertedStateOf s d now) :=
        Inv_of_fields s _ (by simp [insertedStateOf, get_or_create_entries])
          (by simp [insertedStateOf, get_or_create_payouts])
          (by simp [insertedStateOf, get_or_create_nextPayoutId]) h
      have h2 : Inv (dispatch_event (insertedStateOf s d now) (storedEventOf s d now) now) :=
        inv_dispatch_event h1 _ now (by
          show (0 : Int) ≤ d.amount_cents
          exact hv.2.2.2.2.2.1)
      exact Inv_of_fields
        (dispatch_event (insertedStateOf s d now) (storedEventOf s d now) now) _
        rfl rfl rfl h2

theorem inv_init : Inv initState := by
  refine ⟨?_, ?_, ?_, ?_, ?_, ?_⟩ <;> simp [initState, reserveFor]

theorem reachable_inv {s : DBState} (h : Reachable s) : Inv s := by
  induction h with
  | refl => exact inv_init
  | tail hsteps hstep ih =>
      rename_i b c
      cases hstep with
      | process_ev d now hv => exact inv_process_event ih d now hv
      | gen_payout d now today => exact inv_generate_payout_state ih d now today
      | gen_batch d now hv =>
          exact inv_batch_fold hv now (list_active_restaurant_ids b) (0, b) ih
      | upd_status pid st fr now hok => exact inv_update_status ih pid st fr now hok

/-! ## Further supporting lemmas -/

theorem entryPending_eq (now : Int) (e : LedgerEntry) :
    entryPending now e = !entryAvailable now e := by
  unfold entryPending entryAvailable
  cases e.available_at with
  | none => rfl
  | some t =>
      by_cases h : t ≤ now <;> simp [h] <;> omega

theorem get_total_balance_congr {s s' : DBState} (h : s'.entries = s.entries)
    (c : String) : get_total_balance s' c = get_total_balance s c := by
  unfold get_total_balance
  rw [h]

theorem get_by_id_congr {s s' : DBState} (h : s'.payouts = s.payouts) (pid : Nat) :
    get_by_id s' pid = get_by_id s pid := by
  unfold get_by_id
  rw [h]

theorem dispatch_event_of_payout_paid (s : DBState) (e : ProcessorEvent) (now : Int)
    (h : e.event_type = EventType.payout_paid) :
    dispatch_event s e now = process_payout_paid s e now := by
  unfold dispatch_event
  rw [h]

theorem process_payout_paid_of_meta_none (s : DBState) (e : ProcessorEvent) (now : Int)
    (h : getPayoutIdFromMeta e.metadata_ = none) :
    process_payout_paid s e now = s := by
  unfold process_payout_paid
  rw [h]

theorem process_payout_paid_of_not_found (s : DBState) (e : ProcessorEvent) (now : Int)
    (pid : Nat) (h : getPayoutIdFromMeta e.metadata_ = some pid)
    (hg : get_by_id s pid = none) :
    process_payout_paid s e now = s := by
  unfold process_payout_paid
  simp only [h, hg]

theorem process_payout_paid_of_found (s : DBState) (e : ProcessorEvent) (now : Int)
    (pid : Nat) (p : Payout) (h : getPayoutIdFromMeta e.metadata_ = some pid)
    (hg : get_by_id s pid = some p) :
    process_payout_paid s e now = update_status s pid PayoutStatus.paid none now := by
  unfold process_payout_paid
  simp only [h, hg]

theorem insertedStateOf_payouts (s : DBState) (d : ProcessorEventCreate) (now : Int) :
    (insertedStateOf s d now).payouts = s.payouts := by
  simp [insertedStateOf, get_or_create_payouts]

theorem insertedStateOf_entries (s : DBState) (d : ProcessorEventCreate) (now : Int) :
    (insertedStateOf s d now).entries = s.entries := by
  simp [insertedStateOf, get_or_create_entries]

theorem insertedStateOf_events (s : DBState) (d : ProcessorEventCreate) (now : Int) :
    (insertedStateOf s d now).events =
      (get_or_create s d.restaurant_id d.restaurant_id).events ++ [storedEventOf s d now] := by
  simp [insertedStateOf]

theorem insertedStateOf_restaurants (s : DBState) (d : ProcessorEventCreate) (now : Int) :
    (insertedStateOf s d now).restaurants =
      (get_or_create s d.restaurant_id d.restaurant_id).restaurants := by
  simp [insertedStateOf]

theorem dispatch_event_payouts_cases (s : DBState) (e : ProcessorEvent) (now : Int) :
    (dispatch_event s e now).payouts = s.payouts ∨
      ∃ pid, (dispatch_event s e now).payouts
        = s.payouts.map (applyStatus pid PayoutStatus.paid none now) := by
  unfold dispatch_event
  cases e.event_type
  · rw [create_sale_entries_eq]; exact Or.inl rfl
  · rw [create_refund_entry_eq]; exact Or.inl rfl
  · rcases process_payout_paid_cases s e now with h | ⟨pid, -, h⟩ <;> rw [h]
    · exact Or.inl rfl
    · exact Or.inr ⟨pid, rfl⟩

theorem process_event_payouts_cases (s : DBState) (d : ProcessorEventCreate) (now : Int) :
    (process_event s d now).2.2.payouts = s.payouts ∨
      ∃ pid, (process_event s d now).2.2.payouts
        = s.payouts.map (applyStatus pid PayoutStatus.paid none now) := by
  cases hfind : (get_or_create s d.restaurant_id d.restaurant_id).events.find?
      (fun e => decide (e.event_id = d.event_id)) with
  | some e =>
      rw [process_event_found_eq s d now e hfind, get_or_create_payouts]
      exact Or.inl rfl
  | none =>
      have hnew : ∀ e ∈ s.events, ¬ e.event_id = d.event_id := by
        intro e he
        have := List.find?_eq_none.mp hfind e (by rwa [get_or_create_events])
        simpa using this
      rw [process_event_new_eq s d now hnew]
      have hgoal : (dispatch_event (insertedStateOf s d now) (storedEventOf s d now) now).payouts
            = s.payouts ∨
          ∃ pid, (dispatch_event (insertedStateOf s d now) (storedEventOf s d now) now).payouts
            = s.payouts.map (applyStatus pid PayoutStatus.paid none now) := by
        rcases dispatch_event_payouts_cases (insertedStateOf s d now) (storedEventOf s d now) now
          with h | ⟨pid, h⟩
        · rw [h, insertedStateOf_payouts]; exact Or.inl rfl
        · rw [h, insertedStateOf_payouts]; exact Or.inr ⟨pid, rfl⟩
      exact hgoal

theorem batchStep_payouts_cases (d : PayoutRunRequest) (now : Int) (acc : Nat × DBState)
    (rid : String) :
    ((batchStep d now acc rid).2.payouts = acc.2.payouts ∧
      (batchStep d now acc rid).2.nextPayoutId = acc.2.nextPayoutId) ∨
    ((batchStep d now acc rid).2.payouts
        = acc.2.payouts ++ [(create_payout acc.2 rid
            (get_available_balance_with_lock acc.2 rid d.currency now) d.currency
            (some d.as_of) now now).1] ∧
      (batchStep d now acc rid).2.nextPayoutId = acc.2.nextPayoutId + 1) := by
  unfold batchStep
  by_cases h1 : has_pending_payouts acc.2 rid d.currency
  · exact Or.inl (by simp [h1])
  · simp only [h1, if_false, Bool.false_eq_true]
    by_cases h2 : exists_for_as_of acc.2 rid d.currency d.as_of
    · exact Or.inl (by simp [h1, h2])
    · simp only [h2, if_false, Bool.false_eq_true]
      by_cases h3 : get_available_balance_with_lock acc.2 rid d.currency now < d.min_amount
      · exact Or.inl (by simp [h1, h2, h3])
      · simp only [h3, if_false]
        obtain ⟨-, hpay, -, hnext, -, -⟩ := create_payout_with_items_shape acc.2 rid
          d.currency (some d.as_of) (get_available_balance_with_lock acc.2 rid d.currency now)
          now now
        exact Or.inr ⟨hpay, hnext⟩

theorem generate_payout_state_cases (s : DBState) (d : PayoutCreate) (now today : Int) :
    generate_payout_state s d now today = s ∨
    ((generate_payout_state s d now today).payouts
        = s.payouts ++ [(create_payout s d.restaurant_id
            (get_available_balance_with_lock s d.restaurant_id d.currency now) d.currency
            none now today).1] ∧
      (generate_payout_state s d now today).nextPayoutId = s.nextPayoutId + 1) := by
  unfold generate_payout_state generate_payout
  by_cases h1 : has_pending_payouts s d.restaurant_id d.currency
  · exact Or.inl (by simp [h1])
  · simp only [h1, if_false, Bool.false_eq_true]
    by_cases h2 : get_available_balance_with_lock s d.restaurant_id d.currency now <
        MIN_PAYOUT_AMOUNT
    · exact Or.inl (by simp [h1, h2])
    · simp only [h2, if_false]
      obtain ⟨-, hpay, -, hnext, -, -⟩ := create_payout_with_items_shape s d.restaurant_id
        d.currency none (get_available_balance_with_lock s d.restaurant_id d.currency now)
        now today
      exact Or.inr ⟨hpay, hnext⟩

theorem batch_fold_stick (d : PayoutRunRequest) (now : Int) (pid0 : Nat) :
    ∀ (rids : List String) (acc : Nat × DBState),
      (∀ q ∈ acc.2.payouts, q.id = pid0 → q.status = PayoutStatus.paid) →
      pid0 < acc.2.nextPayoutId →
      ∀ q ∈ (rids.foldl (batchStep d now) acc).2.payouts, q.id = pid0 →
        q.status = PayoutStatus.paid := by
  intro rids
  induction rids with
  | nil => intro acc h hlt; exact h
  | cons a t ih =>
      intro acc h hlt
      simp only [List.foldl_cons]
      refine ih _ ?_ ?_
      · rcases batchStep_payouts_cases d now acc a with ⟨hp, -⟩ | ⟨hp, -⟩
        · rw [hp]; exact h
        · rw [hp]
          intro q hq hid
          rcases List.mem_append.mp hq with hq | hq
          · exact h q hq hid
          · rcases List.mem_singleton.mp hq with rfl
            rw [create_payout_fst] at hid
            exact absurd hid (by simpa using Nat.ne_of_gt hlt)
      · rcases batchStep_payouts_cases d now acc a with ⟨-, hn⟩ | ⟨-, hn⟩ <;> rw [hn] <;> omega

/-- Replaying the same payload against the post-state of a fresh ingestion
returns the stored event with is_new = false and leaves the state unchanged. -/
theorem process_event_replay (s : DBState) (d : ProcessorEventCreate) (now₁ now₂ : Int)
    (hnew : ∀ e ∈ s.events, ¬ e.event_id = d.event_id) :
    process_event (process_event s d now₁).2.2 d now₂
      = ((process_event s d now₁).1, false, (process_event s d now₁).2.2) := by
  rw [process_event_new_eq s d now₁ hnew]
  set S : DBState :=
    { dispatch_event (insertedStateOf s d now₁) (storedEventOf s d now₁) now₁ with
        balanceGauge := get_total_balance
          (dispatch_event (insertedStateOf s d now₁) (storedEventOf s d now₁) now₁)
          d.currency } with hS
  have hrest : S.restaurants = (get_or_create s d.restaurant_id d.restaurant_id).restaurants := by
    rw [hS]
    show (dispatch_event (insertedStateOf s d now₁) (storedEventOf s d now₁) now₁).restaurants = _
    rw [dispatch_event_restaurants, insertedStateOf_restaurants]
  have hev : S.events =
      (get_or_create s d.restaurant_id d.restaurant_id).events ++ [storedEventOf s d now₁] := by
    rw [hS]
    show (dispatch_event (insertedStateOf s d now₁) (storedEventOf s d now₁) now₁).events = _
    rw [dispatch_event_events, insertedStateOf_events]
  have hhas : S.restaurants.any (fun r => decide (r.id = d.restaurant_id)) = true := by
    rw [hrest]
    exact get_or_create_has s _ _
  have hoc : get_or_create S d.restaurant_id d.restaurant_id = S :=
    get_or_create_of_has _ _ _ hhas
  have hfind : (get_or_create S d.restaurant_id d.restaurant_id).events.find?
      (fun e => decide (e.event_id = d.event_id)) = some (storedEventOf s d now₁) := by
    rw [hoc, hev, find?_append_of_none]
    · simp [storedEventOf]
    · intro x hx
      rw [get_or_create_events] at hx
      simpa using hnew x hx
  rw [process_event_found_eq S d now₂ _ hfind, hoc]

/-! ## Claims -/

/-- C1: for every valid new event payload (any event_type), process_event
completes (it is a total function of the embedding), returns the stored event
with isNew = true, and leaves the process-wide balance gauge equal to the
total balance for the event's currency, recomputed on the post-state.  The
total-balance read is the spec-modelled LedgerRepository.get_total_balance. -/
theorem claim_C1 (s : DBState) (d : ProcessorEventCreate) (now : Int) (hv : d.Valid)
    (hnew : ∀ e ∈ s.events, ¬ e.event_id = d.event_id) :
    (process_event s d now).2.1 = true ∧
    (process_event s d now).1.event_id = d.event_id ∧
    (process_event s d now).1 ∈ (process_event s d now).2.2.events ∧
    (process_event s d now).2.2.balanceGauge
      = get_total_balance (process_event s d now).2.2 d.currency := by
  rw [process_event_new_eq s d now hnew]
  refine ⟨rfl, rfl, ?_, ?_⟩
  · show storedEventOf s d now ∈
      (dispatch_event (insertedStateOf s d now) (storedEventOf s d now) now).events
    rw [dispatch_event_events, insertedStateOf_events]
    simp
  · show get_total_balance
        (dispatch_event (insertedStateOf s d now) (storedEventOf s d now) now) d.currency
      = get_total_balance _ d.currency
    exact (get_total_balance_congr rfl d.currency).symm

/-- C1 witness: the concrete matured charge ingested into the empty state. -/
theorem claim_C1_witness :
    exCharge.Valid ∧ (∀ e ∈ initState.events, ¬ e.event_id = exCharge.event_id) ∧
    ((process_event initState exCharge 0).2.1 = true ∧
     (process_event initState exCharge 0).1.event_id = exCharge.event_id ∧
     (process_event initState exCharge 0).1 ∈ (process_event initState exCharge 0).2.2.events ∧
     (process_event initState exCharge 0).2.2.balanceGauge
       = get_total_balance (process_event initState exCharge 0).2.2 exCharge.currency) :=
  ⟨by decide, by decide, claim_C1 initState exCharge 0 (by decide) (by decide)⟩

/-- C3: processing the same payload repeatedly stores it exactly once; every
replay returns the stored event with is_new = false (surfaced as
idempotent = true by the adapter) and leaves the database state — ledger
entries included — exactly as after the first processing. -/
theorem claim_C3 (s : DBState) (d : ProcessorEventCreate) (now₁ : Int)
    (hnew : ∀ e ∈ s.events, ¬ e.event_id = d.event_id) :
    (process_event s d now₁).2.1 = true ∧
    (process_event s d now₁).2.2.events.countP
      (fun e => decide (e.event_id = d.event_id)) = 1 ∧
    (∀ now₂, process_event (process_event s d now₁).2.2 d now₂
      = ((process_event s d now₁).1, false, (process_event s d now₁).2.2)) ∧
    (∀ nows : List Int,
      nows.foldl (fun st nw => (process_event st d nw).2.2) (process_event s d now₁).2.2
        = (process_event s d now₁).2.2) := by
  refine ⟨?_, ?_, fun now₂ => process_event_replay s d now₁ now₂ hnew, ?_⟩
  · rw [process_event_new_eq s d now₁ hnew]
  · rw [process_event_new_eq s d now₁ hnew]
    show (dispatch_event (insertedStateOf s d now₁) (storedEventOf s d now₁) now₁).events.countP
      (fun e => decide (e.event_id = d.event_id)) = 1
    rw [dispatch_event_events, insertedStateOf_events, List.countP_append,
      get_or_create_events]
    have h0 : s.events.countP (fun e => decide (e.event_id = d.event_id)) = 0 :=
      List.countP_eq_zero.mpr (fun a ha => by simpa using hnew a ha)
    rw [h0]
    simp [storedEventOf, List.countP_cons]
  · intro nows
    induction nows with
    | nil => rfl
    | cons a t ih =>
        simp only [List.foldl_cons]
        rw [process_event_replay s d now₁ a hnew]
        exact ih

/-- C3 witness: the matured charge replayed over the empty state. -/
theorem claim_C3_witness :
    (∀ e ∈ initState.events, ¬ e.event_id = exCharge.event_id) ∧
    ((process_event initState exCharge 0).2.1 = true ∧
     (process_event initState exCharge 0).2.2.events.countP
       (fun e => decide (e.event_id = exCharge.event_id)) = 1 ∧
     (∀ now₂, process_event (process_event initState exCharge 0).2.2 exCharge now₂
       = ((process_event initState exCharge 0).1, false,
          (process_event initState exCharge 0).2.2)) ∧
     (∀ nows : List Int,
       nows.foldl (fun st nw => (process_event st exCharge nw).2.2)
         (process_event initState exCharge 0).2.2
         = (process_event initState exCharge 0).2.2)) :=
  ⟨by decide, claim_C3 initState exCharge 0 (by decide)⟩

/-- C7: create_sale_entries appends exactly one sale entry carrying
+amount_cents maturing at occurred_at + 7 days, followed by exactly one
commission entry carrying -fee_cents with no maturity if and only if
fee_cents > 0, and nothing else. -/
theorem claim_C7 (s : DBState) (r eid : String) (amt fee occ : Int) (c : String)
    (now : Int) :
    (create_sale_entries s r eid amt fee occ c now).entries
      = s.entries ++ (saleEntryOf s r eid amt occ c now ::
          (if 0 < fee then [commissionEntryOf s r eid fee c now] else [])) ∧
    (saleEntryOf s r eid amt occ c now).entry_type = EntryType.sale ∧
    (saleEntryOf s r eid amt occ c now).amount_cents = amt ∧
    (saleEntryOf s r eid amt occ c now).available_at
      = some (occ + MATURITY_DAYS * secondsPerDay) ∧
    (commissionEntryOf s r eid fee c now).entry_type = EntryType.commission ∧
    (commissionEntryOf s r eid fee c now).amount_cents = -fee ∧
    (commissionEntryOf s r eid fee c now).available_at = none := by
  refine ⟨?_, rfl, rfl, rfl, rfl, rfl, rfl⟩
  rw [create_sale_entries_eq]

/-- The partition law the claim intends does hold of the three single-purpose
queries, which the source builds correctly: the available filter (null or
past) and the pending filter (future) split the pair's entries, so available
plus pending is the sum of amount_cents over all of them. -/
theorem available_add_pending_eq_sum (s : DBState) (r c : String) (now : Int) :
    get_available_balance s r c now + get_pending_balance s r c now
      = ((entriesFor s r c).map (fun e => e.amount_cents)).sum := by
  unfold get_available_balance get_pending_balance
  have hpq : (entriesFor s r c).filter (entryPending now)
      = (entriesFor s r c).filter (fun e => !(entryAvailable now e)) :=
    List.filter_congr (fun e _ => entryPending_eq now e)
  rw [hpq]
  exact sum_map_filter_partition _ _ _

/-- C8 (code bug): the balance query is not total.  The source builds
get_balance_summary with func.case((cond, col), else_=...), which raises at
statement construction on every call, so every balance read — the empty
ledger included, where the claim promises (0, 0, null) — fails with an error
instead of returning a row, and BalanceCalculator.get_balance propagates it. -/
theorem claim_C8 (s : DBState) (r c : String) (now : Int) :
    get_balance_summary s r c now = Except.error QueryError.funcCaseInvalid ∧
    get_balance s r c now = Except.error QueryError.funcCaseInvalid :=
  ⟨rfl, rfl⟩

/-! ## Helpers for the payout_paid claims -/

theorem process_event_stored (s : DBState) (d : ProcessorEventCreate) (now : Int)
    (hnew : ∀ e ∈ s.events, ¬ e.event_id = d.event_id) :
    (process_event s d now).2.1 = true ∧
    (process_event s d now).1 ∈ (process_event s d now).2.2.events := by
  rw [process_event_new_eq s d now hnew]
  refine ⟨rfl, ?_⟩
  show storedEventOf s d now ∈
    (dispatch_event (insertedStateOf s d now) (storedEventOf s d now) now).events
  rw [dispatch_event_events, insertedStateOf_events]
  simp

theorem process_event_pp_meta_none (s : DBState) (d : ProcessorEventCreate) (now : Int)
    (ht : d.event_type = EventType.payout_paid)
    (hnew : ∀ e ∈ s.events, ¬ e.event_id = d.event_id)
    (hm : getPayoutIdFromMeta d.metadata = none) :
    (process_event s d now).2.2.payouts = s.payouts ∧
    (process_event s d now).2.2.entries = s.entries := by
  rw [process_event_new_eq s d now hnew]
  have hdisp : dispatch_event (insertedStateOf s d now) (storedEventOf s d now) now
      = process_payout_paid (insertedStateOf s d now) (storedEventOf s d now) now :=
    dispatch_event_of_payout_paid _ _ _ ht
  have hskip : process_payout_paid (insertedStateOf s d now) (storedEventOf s d now) now
      = insertedStateOf s d now :=
    process_payout_paid_of_meta_none _ _ _ hm
  constructor
  · show (dispatch_event (insertedStateOf s d now) (storedEventOf s d now) now).payouts
      = s.payouts
    rw [hdisp, hskip, insertedStateOf_payouts]
  · show (dispatch_event (insertedStateOf s d now) (storedEventOf s d now) now).entries
      = s.entries
    rw [hdisp, hskip, insertedStateOf_entries]

theorem process_event_pp_not_found (s : DBState) (d : ProcessorEventCreate) (now : Int)
    (pid : Nat) (ht : d.event_type = EventType.payout_paid)
    (hnew : ∀ e ∈ s.events, ¬ e.event_id = d.event_id)
    (hm : getPayoutIdFromMeta d.metadata = some pid)
    (hg : get_by_id s pid = none) :
    (process_event s d now).2.2.payouts = s.payouts ∧
    (process_event s d now).2.2.entries = s.entries := by
  rw [process_event_new_eq s d now hnew]
  have hdisp : dispatch_event (insertedStateOf s d now) (storedEventOf s d now) now
      = process_payout_paid (insertedStateOf s d now) (storedEventOf s d now) now :=
    dispatch_event_of_payout_paid _ _ _ ht
  have hg' : get_by_id (insertedStateOf s d now) pid = none := by
    rw [get_by_id_congr (insertedStateOf_payouts s d now) pid]
    exact hg
  have hskip : process_payout_paid (insertedStateOf s d now) (storedEventOf s d now) now
      = insertedStateOf s d now :=
    process_payout_paid_of_not_found _ _ _ pid hm hg'
  constructor
  · show (dispatch_event (insertedStateOf s d now) (storedEventOf s d now) now).payouts
      = s.payouts
    rw [hdisp, hskip, insertedStateOf_payouts]
  · show (dispatch_event (insertedStateOf s d now) (storedEventOf s d now) now).entries
      = s.entries
    rw [hdisp, hskip, insertedStateOf_entries]

theorem process_event_pp_found (s : DBState) (d : ProcessorEventCreate) (now : Int)
    (pid : Nat) (p : Payout) (ht : d.event_type = EventType.payout_paid)
    (hnew : ∀ e ∈ s.events, ¬ e.event_id = d.event_id)
    (hm : getPayoutIdFromMeta d.metadata = some pid)
    (hg : get_by_id s pid = some p) :
    (process_event s d now).2.2.payouts
      = s.payouts.map (applyStatus pid PayoutStatus.paid none now) ∧
    (process_event s d now).2.2.entries = s.entries := by
  rw [process_event_new_eq s d now hnew]
  have hdisp : dispatch_event (insertedStateOf s d now) (storedEventOf s d now) now
      = process_payout_paid (insertedStateOf s d now) (storedEventOf s d now) now :=
    dispatch_event_of_payout_paid _ _ _ ht
  have hg' : get_by_id (insertedStateOf s d now) pid = some p := by
    rw [get_by_id_congr (insertedStateOf_payouts s d now) pid]
    exact hg
  have hupd : process_payout_paid (insertedStateOf s d now) (storedEventOf s d now) now
      = update_status (insertedStateOf s d now) pid PayoutStatus.paid none now :=
    process_payout_paid_of_found _ _ _ pid p hm hg'
  constructor
  · show (dispatch_event (insertedStateOf s d now) (storedEventOf s d now) now).payouts
      = s.payouts.map (applyStatus pid PayoutStatus.paid none now)
    rw [hdisp, hupd, update_status_payouts, insertedStateOf_payouts]
  · show (dispatch_event (insertedStateOf s d now) (storedEventOf s d now) now).entries
      = s.entries
    rw [hdisp, hupd, update_status_entries, insertedStateOf_entries]

/-- C9: a newly stored payout_paid event is always processed successfully:
when the metadata is missing, names no usable payout id, or names an unknown
payout, the handler skips — the event is stored and returned, no payout is
touched and no ledger entry is posted; when the payout exists its status is
set to paid with paid_at stamped to the current time. -/
theorem claim_C9 (s : DBState) (d : ProcessorEventCreate) (now : Int)
    (ht : d.event_type = EventType.payout_paid)
    (hnew : ∀ e ∈ s.events, ¬ e.event_id = d.event_id) :
    (process_event s d now).2.1 = true ∧
    (process_event s d now).1 ∈ (process_event s d now).2.2.events ∧
    (getPayoutIdFromMeta d.metadata = none →
      (process_event s d now).2.2.payouts = s.payouts ∧
      (process_event s d now).2.2.entries = s.entries) ∧
    (∀ pid, getPayoutIdFromMeta d.metadata = some pid → get_by_id s pid = none →
      (process_event s d now).2.2.payouts = s.payouts ∧
      (process_event s d now).2.2.entries = s.entries) ∧
    (∀ pid p, getPayoutIdFromMeta d.metadata = some pid → get_by_id s pid = some p →
      ((process_event s d now).2.2.payouts
          = s.payouts.map (applyStatus pid PayoutStatus.paid none now) ∧
        (process_event s d now).2.2.entries = s.entries) ∧
      ∀ q ∈ (process_event s d now).2.2.payouts, q.id = pid →
        q.status = PayoutStatus.paid ∧ q.paid_at = some now) := by
  obtain ⟨h1, h2⟩ := process_event_stored s d now hnew
  refine ⟨h1, h2, fun hm => process_event_pp_meta_none s d now ht hnew hm,
    fun pid hm hg => process_event_pp_not_found s d now pid ht hnew hm hg,
    fun pid p hm hg => ?_⟩
  obtain ⟨hpay, hent⟩ := process_event_pp_found s d now pid p ht hnew hm hg
  refine ⟨⟨hpay, hent⟩, ?_⟩
  intro q hq hid
  rw [hpay] at hq
  rcases List.mem_map.mp hq with ⟨q', hq', rfl⟩
  rw [applyStatus_id] at hid
  rw [applyStatus_of_eq _ _ _ _ _ hid]
  exact ⟨rfl, rfl⟩

/-- A valid payout_paid payload with no metadata at all. -/
def exPaidNoMeta : ProcessorEventCreate :=
  { event_id := "evt_m", event_type := EventType.payout_paid, occurred_at := 0,
    restaurant_id := "res_m", currency := "PEN", amount_cents := 0, fee_cents := 0,
    metadata := none }

/-- C9 witness: a payout_paid event with no metadata over the empty state. -/
theorem claim_C9_witness :
    exPaidNoMeta.event_type = EventType.payout_paid ∧
    (∀ e ∈ initState.events, ¬ e.event_id = exPaidNoMeta.event_id) ∧
    getPayoutIdFromMeta exPaidNoMeta.metadata = none ∧
    ((process_event initState exPaidNoMeta 3).2.2.payouts = initState.payouts ∧
     (process_event initState exPaidNoMeta 3).2.2.entries = initState.entries) :=
  ⟨rfl, by decide, rfl,
    (claim_C9 initState exPaidNoMeta 3 rfl (by decide)).2.2.1 rfl⟩

/-- C10: the payout_paid transition is keyed solely on metadata.payout_id —
the named payout is marked paid even when its restaurant_id and currency both
differ from the event's; no cross-check is performed. -/
theorem claim_C10 (s : DBState) (d : ProcessorEventCreate) (now : Int) (pid : Nat)
    (p : Payout) (ht : d.event_type = EventType.payout_paid)
    (hnew : ∀ e ∈ s.events, ¬ e.event_id = d.event_id)
    (hm : getPayoutIdFromMeta d.metadata = some pid)
    (hp : get_by_id s pid = some p)
    (hr : ¬ p.restaurant_id = d.restaurant_id) (hc : ¬ p.currency = d.currency) :
    ∀ q ∈ (process_event s d now).2.2.payouts, q.id = pid →
      q.status = PayoutStatus.paid ∧ q.paid_at = some now := by
  obtain ⟨hpay, -⟩ := process_event_pp_found s d now pid p ht hnew hm hp
  intro q hq hid
  rw [hpay] at hq
  rcases List.mem_map.mp hq with ⟨q', hq', rfl⟩
  rw [applyStatus_id] at hid
  rw [applyStatus_of_eq _ _ _ _ _ hid]
  exact ⟨rfl, rfl⟩

/-- The payout row created in exS2. -/
def exPayout1 : Payout :=
  { id := 1, restaurant_id := "res_a", amount_cents := 19750, currency := "PEN",
    as_of := 0, status := PayoutStatus.created, created_at := 0, paid_at := none,
    failure_reason := none }

/-- A payout_paid payload naming payout 1 but carrying a different restaurant
and a different currency than the payout's. -/
def exPaidMismatch : ProcessorEventCreate :=
  { event_id := "evt_x", event_type := EventType.payout_paid, occurred_at := 0,
    restaurant_id := "res_b", currency := "USD", amount_cents := 0, fee_cents := 0,
    metadata := some { payout_id := some 1 } }

/-- C10 witness: the mismatching payout_paid event still marks payout 1 paid. -/
theorem claim_C10_witness :
    exPaidMismatch.event_type = EventType.payout_paid ∧
    (∀ e ∈ exS2.events, ¬ e.event_id = exPaidMismatch.event_id) ∧
    getPayoutIdFromMeta exPaidMismatch.metadata = some 1 ∧
    get_by_id exS2 1 = some exPayout1 ∧
    ¬ exPayout1.restaurant_id = exPaidMismatch.restaurant_id ∧
    ¬ exPayout1.currency = exPaidMismatch.currency ∧
    (∀ q ∈ (process_event exS2 exPaidMismatch 7).2.2.payouts, q.id = 1 →
      q.status = PayoutStatus.paid ∧ q.paid_at = some 7) :=
  ⟨rfl, by decide, rfl, by decide, by decide, by decide,
    claim_C10 exS2 exPaidMismatch 7 1 exPayout1 rfl (by decide) rfl (by decide)
      (by decide) (by decide)⟩

/-! ## Reachability of the concrete executions -/

theorem reach_exS1 : Reachable exS1 :=
  Relation.ReflTransGen.tail Relation.ReflTransGen.refl
    (Step.process_ev initState exCharge 0 (by decide))

theorem reach_exS2 : Reachable exS2 :=
  Relation.ReflTransGen.tail reach_exS1
    (Step.gen_payout exS1 { restaurant_id := "res_a", currency := "PEN" } 0 0)

theorem reach_exS3 : Reachable exS3 :=
  Relation.ReflTransGen.tail reach_exS2
    (Step.upd_status exS2 1 PayoutStatus.failed (some "bank rejected") 0 (by decide))

theorem reach_exS4 : Reachable exS4 :=
  Relation.ReflTransGen.tail reach_exS3
    (Step.process_ev exS3 exPaidEvt 5 (by decide))

/-- The batch request used by the C2 witness. -/
def exRun : PayoutRunRequest :=
  { currency := "PEN", as_of := 10, min_amount := 5000 }

/-- C2: in the batch loop, once a restaurant passes the pending-payout and
as_of guards, the generator reads the available balance through the
(spec-modelled) locked-balance repository operation and the outcome is
decided by comparing that value with min_amount: below it the restaurant is
skipped with no state change, at or above it a payout is created.  The
single-restaurant path behaves the same after its pending check against
MIN_PAYOUT_AMOUNT, rejecting with the available and required amounts. -/
theorem claim_C2 (s : DBState) (d : PayoutRunRequest) (now today : Int) (count : Nat)
    (rid : String) (pc : PayoutCreate)
    (hp : has_pending_payouts s rid d.currency = false)
    (ha : exists_for_as_of s rid d.currency d.as_of = false)
    (hps : has_pending_payouts s pc.restaurant_id pc.currency = false) :
    (get_available_balance_with_lock s rid d.currency now < d.min_amount →
      batchStep d now (count, s) rid = (count, s)) ∧
    (d.min_amount ≤ get_available_balance_with_lock s rid d.currency now →
      (batchStep d now (count, s) rid).1 = count + 1) ∧
    (get_available_balance_with_lock s pc.restaurant_id pc.currency now < MIN_PAYOUT_AMOUNT →
      generate_payout s pc now today = Except.error (PayoutError.insufficientBalance
        pc.restaurant_id (get_available_balance_with_lock s pc.restaurant_id pc.currency now)
        MIN_PAYOUT_AMOUNT)) ∧
    (MIN_PAYOUT_AMOUNT ≤ get_available_balance_with_lock s pc.restaurant_id pc.currency now →
      (generate_payout s pc now today).isOk = true) := by
  refine ⟨?_, ?_, ?_, ?_⟩
  · intro hlt
    unfold batchStep
    simp [hp, ha, hlt]
  · intro hge
    unfold batchStep
    simp [hp, ha, not_lt.mpr hge]
  · intro hlt
    unfold generate_payout
    simp [hps, hlt]
  · intro hge
    unfold generate_payout
    simp only [hps, Bool.false_eq_true, if_false, not_lt.mpr hge, if_neg (not_lt.mpr hge)]
    rfl

/-- C2 witness: the funded restaurant of exS1 under both generator paths. -/
theorem claim_C2_witness :
    has_pending_payouts exS1 "res_a" exRun.currency = false ∧
    exists_for_as_of exS1 "res_a" exRun.currency exRun.as_of = false ∧
    (exRun.min_amount ≤ get_available_balance_with_lock exS1 "res_a" exRun.currency 0 →
      (batchStep exRun 0 (0, exS1) "res_a").1 = 0 + 1) ∧
    (batchStep exRun 0 (0, exS1) "res_a").1 = 1 :=
  ⟨by decide, by decide,
    (claim_C2 exS1 exRun 0 0 0 "res_a" { restaurant_id := "res_a", currency := "PEN" }
      (by decide) (by decide) (by decide)).2.1,
    (claim_C2 exS1 exRun 0 0 0 "res_a" { restaurant_id := "res_a", currency := "PEN" }
      (by decide) (by decide) (by decide)).2.1 (by decide)⟩

/-- C4 counterexample: the claim's strict signs are violated on a reachable
state — a valid charge with amount_cents = 0 posts a sale entry whose amount
is 0, not strictly positive. -/
theorem claim_C4_counterexample :
    ¬ (∀ s : DBState, Reachable s → ∀ e ∈ s.entries, entrySignStrict e) := by
  intro hclaim
  have hreach : Reachable exZ1 :=
    Relation.ReflTransGen.tail Relation.ReflTransGen.refl
      (Step.process_ev initState exZeroCharge 0 (by decide))
  exact absurd (hclaim exZ1 hreach) (by decide)

/-- C4 amended: in every reachable state every ledger entry obeys the sign
discipline the code actually enforces: sale entries are nonnegative (zero
only for a zero-amount charge), commission entries strictly negative (posted
only when fee_cents > 0), refund entries nonpositive (zero only for a
zero-amount refund), payout_reserve entries strictly negative. -/
theorem claim_C4_amended (s : DBState) (h : Reachable s) :
    ∀ e ∈ s.entries, entrySignOk e :=
  (reachable_inv h).sign

/-- C4 witness: the sign discipline on the entries of exS1. -/
theorem claim_C4_witness :
    Reachable exS1 ∧ ∀ e ∈ exS1.entries, entrySignOk e :=
  ⟨reach_exS1, claim_C4_amended exS1 reach_exS1⟩

/-- C6: in every reachable state, every payout — all payouts are created by
the two generator paths — has exactly one payout_reserve ledger entry linked
to it via related_payout_id, and its amount is the negated payout amount; no
operation of the surface creates or removes such entries otherwise. -/
theorem claim_C6 (s : DBState) (h : Reachable s) :
    ∀ p ∈ s.payouts, (reserveFor s p.id).length = 1 ∧
      ∀ e ∈ reserveFor s p.id, e.amount_cents = -p.amount_cents := by
  intro p hp
  have hr := (reachable_inv h).reserve p hp
  constructor
  · have hlen : ((reserveFor s p.id).map (fun e => e.amount_cents)).length = 1 := by
      rw [hr]
      rfl
    simpa using hlen
  · intro e he
    have hmm : e.amount_cents ∈ (reserveFor s p.id).map (fun e => e.amount_cents) :=
      List.mem_map_of_mem _ he
    rw [hr] at hmm
    simpa using hmm

/-- C6 witness: the reachable state exS2 holding payout 1 and its reserve. -/
theorem claim_C6_witness :
    Reachable exS2 ∧
    ∀ p ∈ exS2.payouts, (reserveFor exS2 p.id).length = 1 ∧
      ∀ e ∈ reserveFor exS2 p.id, e.amount_cents = -p.amount_cents :=
  ⟨reach_exS2, claim_C6 exS2 reach_exS2⟩

/-- C5 counterexample: terminal statuses are not protected — from the empty
database one can reach a state whose payout is failed, and ingesting a
payout_paid event naming it changes its status to paid. -/
theorem claim_C5_counterexample :
    ¬ (∀ s s', Reachable s → Step s s' →
        ∀ p ∈ s.payouts, (p.status = PayoutStatus.paid ∨ p.status = PayoutStatus.failed) →
          ∀ q ∈ s'.payouts, q.id = p.id → q.status = p.status) := by
  intro hclaim
  have hstep : Step exS3 exS4 := Step.process_ev exS3 exPaidEvt 5 (by decide)
  exact absurd (hclaim exS3 exS4 reach_exS3 hstep) (by decide)

/-- C5 amended: paid is sticky — in every reachable execution no committed
operation moves a paid payout to a different status (update_status is guarded
by the paid_at consistency check constraint, and the event path only ever
assigns paid) — but failed is not terminal: a payout_paid event naming a
failed payout transitions it to paid. -/
theorem claim_C5_amended :
    (∀ s s', Reachable s → Step s s' →
      ∀ p ∈ s.payouts, p.status = PayoutStatus.paid →
        ∀ q ∈ s'.payouts, q.id = p.id → q.status = PayoutStatus.paid) ∧
    (∀ (s : DBState) (e : ProcessorEvent) (now : Int) (pid : Nat) (p : Payout),
      getPayoutIdFromMeta e.metadata_ = some pid → get_by_id s pid = some p →
      p.status = PayoutStatus.failed →
      ∀ q ∈ (process_payout_paid s e now).payouts, q.id = pid →
        q.status = PayoutStatus.paid) := by
  constructor
  · intro s s' hreach hstep p hp hpaid q hq hid
    have hinv := reachable_inv hreach
    cases hstep with
    | process_ev d now hv =>
        rcases process_event_payouts_cases s d now with hcase | ⟨pid, hcase⟩
        · rw [hcase] at hq
          have heq := mem_unique_of_pairwise_ne hinv.ids_distinct hq hp hid
          rw [heq]
          exact hpaid
        · rw [hcase] at hq
          rcases List.mem_map.mp hq with ⟨q', hq', rfl⟩
          rw [applyStatus_id] at hid
          by_cases hqe : q'.id = pid
          · rw [applyStatus_of_eq _ _ _ _ _ hqe]
          · rw [applyStatus_of_ne _ _ _ _ _ hqe]
            have heq := mem_unique_of_pairwise_ne hinv.ids_distinct hq' hp hid
            rw [heq]
            exact hpaid
    | gen_payout d now today =>
        rcases generate_payout_state_cases s d now today with hcase | ⟨hpay, -⟩
        · rw [hcase] at hq
          have heq := mem_unique_of_pairwise_ne hinv.ids_distinct hq hp hid
          rw [heq]
          exact hpaid
        · rw [hpay] at hq
          rcases List.mem_append.mp hq with hq | hq
          · have heq := mem_unique_of_pairwise_ne hinv.ids_distinct hq hp hid
            rw [heq]
            exact hpaid
          · rcases List.mem_singleton.mp hq with rfl
            rw [create_payout_fst] at hid
            have hlt := hinv.payout_id_lt p hp
            simp at hid
            omega
    | gen_batch d now hv =>
        refine batch_fold_stick d now p.id (list_active_restaurant_ids s) (0, s) ?_ ?_ q hq hid
        · intro q' hq' hid'
          have heq := mem_unique_of_pairwise_ne hinv.ids_distinct hq' hp hid'
          rw [heq]
          exact hpaid
        · exact hinv.payout_id_lt p hp
    | upd_status pid st fr now hok =>
        rw [update_status_payouts] at hq
        rcases List.mem_map.mp hq with ⟨q', hq', rfl⟩
        rw [applyStatus_id] at hid
        have heq := mem_unique_of_pairwise_ne hinv.ids_distinct hq' hp hid
        by_cases hqe : q'.id = pid
        · rcases hok q' hq' hqe with rfl | hpa
          · rw [applyStatus_of_eq _ _ _ _ _ hqe]
          · exfalso
            have hne : q'.paid_at ≠ none :=
              (hinv.paid_at_iff q' hq').mp (by rw [heq]; exact hpaid)
            exact hne hpa
        · rw [applyStatus_of_ne _ _ _ _ _ hqe, heq]
          exact hpaid
  · intro s e now pid p hm hg hfail q hq hid
    rw [process_payout_paid_of_found s e now pid p hm hg, update_status_payouts] at hq
    rcases List.mem_map.mp hq with ⟨q', hq', rfl⟩
    rw [applyStatus_id] at hid
    rw [applyStatus_of_eq _ _ _ _ _ hid]

/-- The paid payout row of exS4. -/
def exPayoutPaid : Payout :=
  { id := 1, restaurant_id := "res_a", amount_cents := 19750, currency := "PEN",
    as_of := 0, status := PayoutStatus.paid, created_at := 0, paid_at := some 5,
    failure_reason := some "bank rejected" }

/-- C5 witness: the paid payout of exS4 stays paid across one more step. -/
theorem claim_C5_witness :
    Reachable exS4 ∧ exPayoutPaid ∈ exS4.payouts ∧
    exPayoutPaid.status = PayoutStatus.paid ∧
    (∀ q ∈ exS5.payouts, q.id = exPayoutPaid.id → q.status = PayoutStatus.paid) :=
  ⟨reach_exS4, by decide, rfl,
    claim_C5_amended.1 exS4 exS5 reach_exS4
      (Step.process_ev exS4 exCharge3 6 (by decide)) exPayoutPaid (by decide) rfl⟩

end MR
